import Mathlib

/-!
# occi11: a reconnecting wrapper around an Oracle (OCCI) session

A shallow embedding of `src/src/occi11.cpp`.  The C++ object state (`env`, `conn`,
`statements`, `resultsets`) becomes the record `Session`; every member function becomes a
function from a `Session` to a result `Res`, which is a normal return, a raised C++
exception, non-termination (`hang`, the loop fuel ran out) or undefined behaviour (`ub`, a
null pointer is dereferenced).

The Oracle client library is outside the repository.  What each of its calls answers is
an argument of the embedded function that makes the call (an oracle), so every theorem
quantifies over the behaviour of the database.  Two ghost fields are added to the session:
`fresh`, the next unused handle, and `trace`, the list of calls made to the client library,
to the callbacks and to `sleep_for`, in program order.  The mutex is not modelled: every
function is run to completion on one thread.
-/

namespace Occi11

/-! ## Data model -/

/-- An `oracle::occi::SQLException`: its error code, and whether the dynamic type of the
thrown object is the derived class `BatchSQLException`. -/
structure SqlErr where
  code : Int
  batch : Bool
  deriving DecidableEq, Repr

/-- The C++ exceptions the code distinguishes in its handlers: an `SQLException`, another
`std::exception` (such as `std::runtime_error`; the flag tells whether `what()` is
non-empty), or an object of any other type. -/
inductive Exc where
  | sql (e : SqlErr)
  | std (hasMessage : Bool)
  | other
  deriving DecidableEq, Repr

/-- A `ResultSet*`: the handle itself and the statement `getStatement()` answers
(`none` is a null pointer). -/
structure RsHandle where
  id : Nat
  stmt : Option Nat
  deriving DecidableEq, Repr

/-- Values of `oracle::occi::Statement::Status`. -/
inductive Status where
  | UNPREPARED
  | PREPARED
  | RESULT_SET_AVAILABLE
  | UPDATE_COUNT_AVAILABLE
  | NEEDS_STREAM_DATA
  | STREAM_DATA_AVAILABLE
  deriving DecidableEq, Repr

/-- The integer value of a `Statement::Status` enumerator. -/
def Status.toInt : Status → Int
  | .UNPREPARED => 0
  | .PREPARED => 1
  | .RESULT_SET_AVAILABLE => 2
  | .UPDATE_COUNT_AVAILABLE => 3
  | .NEEDS_STREAM_DATA => 4
  | .STREAM_DATA_AVAILABLE => 5

/-- Values of `oracle::occi::ResultSet::Status`. -/
inductive RsStatus where
  | END_OF_FETCH
  | DATA_AVAILABLE
  | STREAM_DATA_AVAILABLE
  deriving DecidableEq, Repr

/-- The conversion of a `ResultSet::Status` to `bool`: `END_OF_FETCH` is 0. -/
def RsStatus.toBool : RsStatus → Bool
  | .END_OF_FETCH => false
  | _ => true

/-- One observable action: a call into the client library, a callback invocation, a
`sleep_for(retry_delay)`, a line written to `std::cerr`, or an entry into `reconnect`. -/
inductive Event where
  | reconnect (retry : Bool)
  | terminateEnvironment
  | createEnvironment
  | createConnection
  | setStmtCacheSize
  | sleep
  | log
  | connCreateStatement
  | connTerminateStatement (st : Nat)
  | connCommit
  | connRollback
  | stmtSetAutoCommit (st : Nat)
  | stmtExecute (st : Nat)
  | stmtExecuteQuery (st : Nat)
  | stmtExecuteUpdate (st : Nat)
  | stmtCloseResultSet (rs : RsHandle)
  | rsNext (rs : RsHandle)
  | onResult (rs : RsHandle)
  | onError (e : SqlErr)
  | onBatchError (e : SqlErr)
  | onCreateStatement (st : Nat)
  deriving DecidableEq, Repr

/-- The state of an `occi11` object, with the ghost fields `fresh` and `trace`. -/
structure Session where
  env : Option Nat
  conn : Option Nat
  statements : List Nat
  resultsets : List RsHandle
  fresh : Nat
  trace : List Event
  deriving DecidableEq, Repr

/-- Append events to the trace. -/
def Session.emit (s : Session) (evs : List Event) : Session :=
  { s with trace := s.trace ++ evs }

/-- The outcome of running a member function. -/
inductive Res (α : Type) where
  | ret (a : α) (s : Session)
  | raise (e : Exc) (s : Session)
  | hang
  | ub
  deriving DecidableEq, Repr

/-- What `Environment::createConnection` answers. -/
inductive ConnOutcome where
  | connected
  | null
  | error (e : SqlErr)
  deriving DecidableEq, Repr

/-- The database as seen by `reconnect`: what `createEnvironment` (`none` is success) and
`createConnection` answer in the `j`-th iteration of the connection loop. -/
structure ConnWorld where
  createEnvironment : Nat → Option SqlErr
  createConnection : Nat → ConnOutcome

/-! ## Error Classifier and Connection Manager -/

/-- The `case` labels of the `switch` in `handle_exception`. -/
def isTransient (code : Int) : Bool :=
  code == 3114 || code == 3113 || code == 12537 || code == 12541 ||
  code == 12514 || code == 1012 || code == 28 || code == 3135

/-- The first statements of `reconnect`: drop the connection pointer, terminate the
environment if there is one, clear both registries. -/
def reconnectReset (retry : Bool) (s : Session) : Session :=
  { s with
    conn := none
    env := none
    statements := []
    resultsets := []
    trace := s.trace ++ [Event.reconnect retry] ++
      (if s.env.isSome then [Event.terminateEnvironment] else []) }

/-- The `try` block of the connection loop, iteration `j`: create the environment if it is
absent, then open the connection.  The Boolean tells whether `conn` was set (the `break`);
otherwise either a null connection or a caught `SQLException` ended the block. -/
def connectOnce (w : ConnWorld) (j : Nat) (s : Session) : Session × Bool :=
  let envStep : Session × Bool :=
    match s.env with
    | some _ => (s, true)
    | none =>
      match w.createEnvironment j with
      | none => ({ s with env := some s.fresh, fresh := s.fresh + 1,
                          trace := s.trace ++ [Event.createEnvironment] }, true)
      | some _ => (s.emit [Event.createEnvironment], false)
  if envStep.2 then
    match w.createConnection j with
    | .connected =>
      ({ envStep.1 with conn := some envStep.1.fresh, fresh := envStep.1.fresh + 1,
                        trace := envStep.1.trace ++ [Event.createConnection, Event.setStmtCacheSize] },
        true)
    | .null => (envStep.1.emit [Event.createConnection], false)
    | .error _ => (envStep.1.emit [Event.createConnection], false)
  else (envStep.1, false)

/-- The loop `while (!conn)` of `reconnect`.  A failed iteration writes to `std::cerr`, then
throws `std::runtime_error` when `retry` is false and sleeps `retry_delay` otherwise. -/
def reconnectLoop (w : ConnWorld) (retry : Bool) : Nat → Nat → Session → Res Unit
  | 0, _, _ => .hang
  | fuel + 1, j, s =>
    match s.conn with
    | some _ => .ret () s
    | none =>
      match connectOnce w j s with
      | (s1, true) => .ret () s1
      | (s1, false) =>
        if retry then reconnectLoop w retry fuel (j + 1) (s1.emit [Event.log, Event.sleep])
        else .raise (Exc.std true) (s1.emit [Event.log])

/-- The member function `occi11::reconnect(bool retry)`. -/
def reconnect (w : ConnWorld) (fuel : Nat) (retry : Bool) (s : Session) : Res Unit :=
  reconnectLoop w retry fuel 0 (reconnectReset retry s)

/-- The member function `occi11::connect(bool retry)`. -/
def connect (w : ConnWorld) (fuel : Nat) (retry : Bool) (s : Session) : Res Unit :=
  match s.conn with
  | some _ => .ret () s
  | none => reconnect w fuel retry s

/-- The exception object made by `throw e;` where `e` has static type `SQLException&`: a
copy of the `SQLException` base, so a `BatchSQLException` loses its dynamic type. -/
def SqlErr.sliced (e : SqlErr) : SqlErr :=
  { e with batch := false }

/-- The condition `!stmt || statements.find(stmt) != statements.end()`. -/
def stmtLive (stmt : Option Nat) (s : Session) : Bool :=
  match stmt with
  | none => true
  | some h => decide (h ∈ s.statements)

/-- The member function `occi11::handle_exception(SQLException& e, Statement* stmt)`.
`reconnect()` is called with its default argument `retry = true` (occi11.h). -/
def handle_exception {α : Type} (w : ConnWorld) (fuel : Nat) (e : SqlErr)
    (stmt : Option Nat) (s : Session) : Res α :=
  if isTransient e.code then
    if stmtLive stmt s then
      match reconnect w fuel true s with
      | .ret _ s1 => .raise (Exc.sql e.sliced) s1
      | .raise x s1 => .raise x s1
      | .hang => .hang
      | .ub => .ub
    else .raise (Exc.sql e.sliced) s
  else .raise (Exc.sql e.sliced) s

/-! ## Execution Wrapper: single-attempt primitives -/

/-- The member function `occi11::execute(Statement*)`; `r` is what `stmt->execute()` does. -/
def execute (w : ConnWorld) (fuel : Nat) (r : Except SqlErr Status) (stmt : Nat)
    (s : Session) : Res Status :=
  match r with
  | .ok st => .ret st (s.emit [Event.stmtExecute stmt])
  | .error e => handle_exception w fuel e (some stmt) (s.emit [Event.stmtExecute stmt])

/-- The member function `occi11::executeQuery(Statement*)`; `r` is what
`stmt->executeQuery()` does (on success the client hands out a new result set). -/
def executeQuery (w : ConnWorld) (fuel : Nat) (r : Except SqlErr Unit) (stmt : Nat)
    (s : Session) : Res RsHandle :=
  match r with
  | .ok _ =>
    let rs : RsHandle := { id := s.fresh, stmt := some stmt }
    .ret rs { s with resultsets := s.resultsets.insert rs, fresh := s.fresh + 1,
                     trace := s.trace ++ [Event.stmtExecuteQuery stmt] }
  | .error e => handle_exception w fuel e (some stmt) (s.emit [Event.stmtExecuteQuery stmt])

/-- The member function `occi11::executeUpdate(Statement*)`; `r` is what
`stmt->executeUpdate()` does.  The row count is an `unsigned int`. -/
def executeUpdate (w : ConnWorld) (fuel : Nat) (r : Except SqlErr Nat) (stmt : Nat)
    (s : Session) : Res Nat :=
  match r with
  | .ok c => .ret (c % 2 ^ 32) (s.emit [Event.stmtExecuteUpdate stmt])
  | .error e => handle_exception w fuel e (some stmt) (s.emit [Event.stmtExecuteUpdate stmt])

/-- The member function `occi11::createStatement`; `r` is what `conn->createStatement`
does (`none` is success).  With no connection the call dereferences a null pointer. -/
def createStatement (w : ConnWorld) (fuel : Nat) (r : Option SqlErr) (s : Session) : Res Nat :=
  match s.conn with
  | none => .ub
  | some _ =>
    match r with
    | none =>
      .ret s.fresh { s with statements := s.statements.insert s.fresh, fresh := s.fresh + 1,
                            trace := s.trace ++ [Event.connCreateStatement] }
    | some e => handle_exception w fuel e none (s.emit [Event.connCreateStatement])

/-- The member function `occi11::terminateStatement`; `r` is what
`conn->terminateStatement` does when it is called (`none` is success).  A caught
`SQLException` is written to `std::cerr` and skips the `erase`.  `none` in the result is
undefined behaviour: a registered statement with a null `conn`. -/
def terminateStatement (r : Option SqlErr) (stmt : Option Nat) (s : Session) : Option Session :=
  match stmt with
  | none => some s
  | some h =>
    if h ∈ s.statements then
      match s.conn with
      | none => none
      | some _ =>
        match r with
        | none => some { s with statements := s.statements.filter (fun x => x ≠ h),
                                trace := s.trace ++ [Event.connTerminateStatement h] }
        | some _ => some (s.emit [Event.connTerminateStatement h, Event.log])
    else some s

/-- The member function `occi11::next`: a result set that is not registered is refused
with `std::runtime_error("")`; `r` is what `resultset->next()` does, and its
`SQLException` is not caught here. -/
def next (r : Except SqlErr RsStatus) (rs : RsHandle) (s : Session) : Res RsStatus :=
  if rs ∈ s.resultsets then
    match r with
    | .ok st => .ret st (s.emit [Event.rsNext rs])
    | .error e => .raise (Exc.sql e) (s.emit [Event.rsNext rs])
  else .raise (Exc.std false) s

/-- The member function `occi11::closeResultSet`; `rc` is what `stmt->closeResultSet`
does and `rt` what `conn->terminateStatement` does, when called. -/
def closeResultSet (rc rt : Option SqlErr) (result : Option RsHandle) (s : Session) :
    Option Session :=
  match result with
  | none => some s
  | some rs =>
    if rs ∈ s.resultsets then
      match rs.stmt with
      | none =>
        terminateStatement rt none { s with resultsets := s.resultsets.filter (fun x => x ≠ rs) }
      | some st =>
        match rc with
        | none =>
          terminateStatement rt (some st)
            { s with resultsets := s.resultsets.filter (fun x => x ≠ rs),
                     trace := s.trace ++ [Event.stmtCloseResultSet rs] }
        | some _ =>
          terminateStatement rt (some st) (s.emit [Event.stmtCloseResultSet rs, Event.log])
    else some s

/-- The member function `occi11::commit`; `r` is what `conn->commit()` does. -/
def commit (w : ConnWorld) (fuel : Nat) (r : Option SqlErr) (s : Session) : Res Unit :=
  match s.conn with
  | none => .ret () s
  | some _ =>
    match r with
    | none => .ret () (s.emit [Event.connCommit])
    | some e => handle_exception w fuel e none (s.emit [Event.connCommit])

/-- The member function `occi11::rollback`; `r` is what `conn->rollback()` does. -/
def rollback (w : ConnWorld) (fuel : Nat) (r : Option SqlErr) (s : Session) : Res Unit :=
  match s.conn with
  | none => .ret () s
  | some _ =>
    match r with
    | none => .ret () (s.emit [Event.connRollback])
    | some e => handle_exception w fuel e none (s.emit [Event.connRollback])

/-! ## Callbacks -/

/-- How a callback invocation ends: it returns a value or throws. -/
inductive CbFin (α : Type) where
  | ret (a : α)
  | raise (e : Exc)
  deriving DecidableEq, Repr

/-- One invocation of an `on_result_func`: it calls `next` on the result set it is given
`nexts` times, letting any exception of `next` escape, and then ends as `fin` says.
Callbacks that call other member functions of the session are outside this model. -/
structure RowCb where
  nexts : Nat
  fin : CbFin Bool

/-- Call `next(rs)` `n` times in a row; `nextO p` is what the cursor does on the call
made when `p` calls have already been made on this result set.  Returns the new
position. -/
def callNexts (nextO : Nat → Except SqlErr RsStatus) (rs : RsHandle) :
    Nat → Nat → Session → Res Nat
  | 0, pos, s => .ret pos s
  | n + 1, pos, s =>
    match next (nextO pos) rs s with
    | .ret _ s1 => callNexts nextO rs n (pos + 1) s1
    | .raise e s1 => .raise e s1
    | .hang => .hang
    | .ub => .ub

/-- The call `on_result(this, resultset)`. -/
def runOnResult (nextO : Nat → Except SqlErr RsStatus) (cb : RowCb) (rs : RsHandle)
    (pos : Nat) (s : Session) : Res (Bool × Nat) :=
  match callNexts nextO rs cb.nexts pos (s.emit [Event.onResult rs]) with
  | .ret pos1 s1 =>
    match cb.fin with
    | .ret b => .ret (b, pos1) s1
    | .raise e => .raise e s1
  | .raise e s1 => .raise e s1
  | .hang => .hang
  | .ub => .ub

/-! ## Execution Wrapper: text-based wrappers -/

/-- The handler `catch (SQLException& e) { terminateStatement(stmt); throw e; }` of the
text-based wrappers; any other exception is not caught. -/
def cleanupRethrow {α : Type} (rt : Option SqlErr) (stmt : Option Nat) (e : Exc)
    (s : Session) : Res α :=
  match e with
  | .sql err =>
    match terminateStatement rt stmt s with
    | some s1 => .raise (Exc.sql err.sliced) s1
    | none => .ub
  | x => .raise x s

/-- What the client library does during one text-based call: `create` for
`conn->createStatement`, `term` for `conn->terminateStatement`, `close` for
`stmt->closeResultSet`, `nextO` for the cursor, `conn` for a reconnect. -/
structure StmtWorld where
  conn : ConnWorld
  create : Option SqlErr
  term : Option SqlErr
  close : Option SqlErr
  nextO : Nat → Except SqlErr RsStatus

/-- The member function `occi11::execute(const std::string&)`. -/
def executeStr (w : StmtWorld) (fuel : Nat) (run : Except SqlErr Status) (s : Session) :
    Res Status :=
  match createStatement w.conn fuel w.create s with
  | .ret stmt s1 =>
    match execute w.conn fuel run stmt s1 with
    | .ret status s2 =>
      match terminateStatement w.term (some stmt) s2 with
      | some s3 => .ret status s3
      | none => .ub
    | .raise e s2 => cleanupRethrow w.term (some stmt) e s2
    | .hang => .hang
    | .ub => .ub
  | .raise e s1 => cleanupRethrow w.term none e s1
  | .hang => .hang
  | .ub => .ub

/-- The member function `occi11::executeUpdate(const std::string&)`. -/
def executeUpdateStr (w : StmtWorld) (fuel : Nat) (run : Except SqlErr Nat) (s : Session) :
    Res Nat :=
  match createStatement w.conn fuel w.create s with
  | .ret stmt s1 =>
    match executeUpdate w.conn fuel run stmt s1 with
    | .ret result s2 =>
      match terminateStatement w.term (some stmt) s2 with
      | some s3 => .ret result s3
      | none => .ub
    | .raise e s2 => cleanupRethrow w.term (some stmt) e s2
    | .hang => .hang
    | .ub => .ub
  | .raise e s1 => cleanupRethrow w.term none e s1
  | .hang => .hang
  | .ub => .ub

/-- The loop `while (on_result(this, resultset));` of the text-based `executeQuery`;
`onRow k` is what the callback does on its `k`-th invocation (counted from 0). -/
def drain (nextO : Nat → Except SqlErr RsStatus) (onRow : Nat → RowCb) (rs : RsHandle) :
    Nat → Nat → Nat → Session → Res Unit
  | 0, _, _, _ => .hang
  | fuel + 1, calls, pos, s =>
    match runOnResult nextO (onRow calls) rs pos s with
    | .ret (true, pos1) s1 => drain nextO onRow rs fuel (calls + 1) pos1 s1
    | .ret (false, _) s1 => .ret () s1
    | .raise e s1 => .raise e s1
    | .hang => .hang
    | .ub => .ub

/-- The member function `occi11::executeQuery(const std::string&, on_result_func)`. -/
def executeQueryStr (w : StmtWorld) (fuel : Nat) (run : Except SqlErr Unit)
    (onRow : Nat → RowCb) (s : Session) : Res Unit :=
  match createStatement w.conn fuel w.create s with
  | .ret stmt s1 =>
    match executeQuery w.conn fuel run stmt s1 with
    | .ret rs s2 =>
      match drain w.nextO onRow rs fuel 0 0 s2 with
      | .ret _ s3 =>
        match closeResultSet w.close w.term (some rs) s3 with
        | some s4 => .ret () s4
        | none => .ub
      | .raise e s3 => cleanupRethrow w.term (some stmt) e s3
      | .hang => .hang
      | .ub => .ub
    | .raise e s2 => cleanupRethrow w.term (some stmt) e s2
    | .hang => .hang
    | .ub => .ub
  | .raise e s1 => cleanupRethrow w.term none e s1
  | .hang => .hang
  | .ub => .ub

/-! ## Ensure Executor -/

/-- Lift the result of `terminateStatement`, whose `none` is undefined behaviour. -/
def afterTerminate {α : Type} (o : Option Session) (k : Session → Res α) : Res α :=
  match o with
  | some s => k s
  | none => .ub

/-- What the client library and the callbacks do during one attempt of `ensureExecute`
or `ensureExecuteUpdate`. -/
structure AttemptWorld where
  conn : ConnWorld
  create : Option SqlErr
  execute : Except SqlErr Status
  update : Except SqlErr Nat
  term : Option SqlErr
  onCreateStatement : CbFin Unit
  onError : CbFin Unit
  onBatchError : CbFin Unit

/-- The `try` block of one attempt of `ensureExecute`: the statement variable as it is
left when the block ends, and how the block ends. -/
def ensureExecuteTry (w : AttemptWorld) (fuel : Nat) (hasOnCreate : Bool) (s : Session) :
    Option Nat × Res Status :=
  match createStatement w.conn fuel w.create s with
  | .ret stmt s1 =>
    let s2 := s1.emit [Event.stmtSetAutoCommit stmt]
    if hasOnCreate then
      match w.onCreateStatement with
      | .ret _ => (some stmt, execute w.conn fuel w.execute stmt (s2.emit [Event.onCreateStatement stmt]))
      | .raise e => (some stmt, .raise e (s2.emit [Event.onCreateStatement stmt]))
    else (some stmt, execute w.conn fuel w.execute stmt s2)
  | .raise e s1 => (none, .raise e s1)
  | .hang => (none, .hang)
  | .ub => (none, .ub)

/-- The loop of the four-argument `occi11::ensureExecute`.  `status` is the local
variable, `-1` until an attempt succeeds; `ws a` is the world of attempt `a`; the three
flags tell which callbacks are non-null. -/
def ensureExecuteLoop (ws : Nat → AttemptWorld) (fuel : Nat)
    (hasOnCreate hasOnError hasOnBatchError : Bool) : Nat → Nat → Int → Session → Res Int
  | 0, _, _, _ => .hang
  | n + 1, a, status, s =>
    if status ≠ -1 then .ret status s
    else
      match ensureExecuteTry (ws a) fuel hasOnCreate s with
      | (stmt, .ret st s1) =>
        afterTerminate (terminateStatement (ws a).term stmt s1) fun s2 =>
          ensureExecuteLoop ws fuel hasOnCreate hasOnError hasOnBatchError n (a + 1) st.toInt s2
      | (stmt, .raise (Exc.sql e) s1) =>
        if e.batch then
          -- catch (BatchSQLException& e)
          if hasOnBatchError then
            match (ws a).onBatchError with
            | .ret _ =>
              afterTerminate (terminateStatement (ws a).term stmt
                  (s1.emit [Event.onBatchError e, Event.sleep])) fun s2 =>
                ensureExecuteLoop ws fuel hasOnCreate hasOnError hasOnBatchError n (a + 1) status s2
            | .raise x => .raise x (s1.emit [Event.onBatchError e])
          else
            afterTerminate (terminateStatement (ws a).term stmt (s1.emit [Event.sleep])) fun s2 =>
              ensureExecuteLoop ws fuel hasOnCreate hasOnError hasOnBatchError n (a + 1) status s2
        else
          -- catch (SQLException& e)
          if hasOnError then
            match (ws a).onError with
            | .ret _ =>
              afterTerminate (terminateStatement (ws a).term stmt
                  (s1.emit [Event.onError e, Event.sleep])) fun s2 =>
                ensureExecuteLoop ws fuel hasOnCreate hasOnError hasOnBatchError n (a + 1) status s2
            | .raise x => .raise x (s1.emit [Event.onError e])
          else
            afterTerminate (terminateStatement (ws a).term stmt (s1.emit [Event.sleep])) fun s2 =>
              ensureExecuteLoop ws fuel hasOnCreate hasOnError hasOnBatchError n (a + 1) status s2
      | (_, .raise x s1) => .raise x s1
      | (_, .hang) => .hang
      | (_, .ub) => .ub

/-- The member function `occi11::ensureExecute(str, on_create_statement, on_error,
on_batch_error)`. -/
def ensureExecute (ws : Nat → AttemptWorld) (fuel : Nat)
    (hasOnCreate hasOnError hasOnBatchError : Bool) (s : Session) : Res Int :=
  ensureExecuteLoop ws fuel hasOnCreate hasOnError hasOnBatchError fuel 0 (-1) s

/-- The value `std::numeric_limits<unsigned int>::max()`. -/
def UINT_MAX : Nat := 4294967295

/-- The `try` block of one attempt of `ensureExecuteUpdate`. -/
def ensureExecuteUpdateTry (w : AttemptWorld) (fuel : Nat) (s : Session) :
    Option Nat × Res Nat :=
  match createStatement w.conn fuel w.create s with
  | .ret stmt s1 =>
    (some stmt, executeUpdate w.conn fuel w.update stmt (s1.emit [Event.stmtSetAutoCommit stmt]))
  | .raise e s1 => (none, .raise e s1)
  | .hang => (none, .hang)
  | .ub => (none, .ub)

/-- The loop of `occi11::ensureExecuteUpdate`.  `result` is the local variable,
`UINT_MAX` until an attempt succeeds with another value.  An exception of `on_error`
derived from `std::exception` is caught and logged; any other one escapes. -/
def ensureExecuteUpdateLoop (ws : Nat → AttemptWorld) (fuel : Nat) (hasOnError : Bool) :
    Nat → Nat → Nat → Session → Res Nat
  | 0, _, _, _ => .hang
  | n + 1, a, result, s =>
    if result ≠ UINT_MAX then .ret result s
    else
      match ensureExecuteUpdateTry (ws a) fuel s with
      | (stmt, .ret r s1) =>
        afterTerminate (terminateStatement (ws a).term stmt s1) fun s2 =>
          ensureExecuteUpdateLoop ws fuel hasOnError n (a + 1) r s2
      | (stmt, .raise (Exc.sql e) s1) =>
        if hasOnError then
          match (ws a).onError with
          | .ret _ =>
            afterTerminate (terminateStatement (ws a).term stmt
                (s1.emit [Event.onError e, Event.sleep])) fun s2 =>
              ensureExecuteUpdateLoop ws fuel hasOnError n (a + 1) result s2
          | .raise Exc.other => .raise Exc.other (s1.emit [Event.onError e])
          | .raise _ =>
            afterTerminate (terminateStatement (ws a).term stmt
                (s1.emit [Event.onError e, Event.log, Event.sleep])) fun s2 =>
              ensureExecuteUpdateLoop ws fuel hasOnError n (a + 1) result s2
        else
          afterTerminate (terminateStatement (ws a).term stmt (s1.emit [Event.sleep])) fun s2 =>
            ensureExecuteUpdateLoop ws fuel hasOnError n (a + 1) result s2
      | (_, .raise x s1) => .raise x s1
      | (_, .hang) => .hang
      | (_, .ub) => .ub

/-- The member function `occi11::ensureExecuteUpdate(str, on_error)`. -/
def ensureExecuteUpdate (ws : Nat → AttemptWorld) (fuel : Nat) (hasOnError : Bool)
    (s : Session) : Res Nat :=
  ensureExecuteUpdateLoop ws fuel hasOnError fuel 0 UINT_MAX s

/-- What the client library and `on_error` do during one attempt of
`ensureExecuteQuery`. -/
structure QueryWorld where
  conn : ConnWorld
  create : Option SqlErr
  query : Except SqlErr Unit
  nextO : Nat → Except SqlErr RsStatus
  close : Option SqlErr
  term : Option SqlErr
  onError : CbFin Unit

/-- The loop `for (i = 0; i < counter && rows_available; i++) if (!next(resultset))
rows_available = false;`, by recursion on the rows left to skip.  Returns
`rows_available` and the cursor position. -/
def skipRows (nextO : Nat → Except SqlErr RsStatus) (rs : RsHandle) :
    Nat → Nat → Session → Res (Bool × Nat)
  | 0, pos, s => .ret (true, pos) s
  | n + 1, pos, s =>
    match next (nextO pos) rs s with
    | .ret st s1 =>
      if st.toBool then skipRows nextO rs n (pos + 1) s1 else .ret (false, pos + 1) s1
    | .raise e s1 => .raise e s1
    | .hang => .hang
    | .ub => .ub

/-- The values of `counter` and of the number of callback invocations when the delivery
loop ends, and how it ends. -/
structure Delivered where
  counter : Nat
  calls : Nat
  out : Res Unit

/-- The largest value of the C++ type `int`, the type of `counter`. -/
def INT_MAX : Nat := 2147483647

/-- The loop `while (rows_available && on_result(this, resultset)) counter++;` entered with
`rows_available` true.  `counter` is an `int`: `counter++` at `INT_MAX` is a signed
overflow, which is undefined behaviour.  (The index `i` of the skip loop stays below
`counter`, so it cannot overflow.) -/
def deliver (nextO : Nat → Except SqlErr RsStatus) (onRow : Nat → RowCb) (rs : RsHandle) :
    Nat → Nat → Nat → Nat → Session → Delivered
  | 0, counter, calls, _, _ => ⟨counter, calls, .hang⟩
  | fuel + 1, counter, calls, pos, s =>
    match runOnResult nextO (onRow calls) rs pos s with
    | .ret (true, pos1) s1 =>
      if counter < INT_MAX then
        deliver nextO onRow rs fuel (counter + 1) (calls + 1) pos1 s1
      else ⟨counter, calls + 1, .ub⟩
    | .ret (false, _) s1 => ⟨counter, calls + 1, .ret () s1⟩
    | .raise e s1 => ⟨counter, calls + 1, .raise e s1⟩
    | .hang => ⟨counter, calls + 1, .hang⟩
    | .ub => ⟨counter, calls + 1, .ub⟩

/-- The part of the `try` block of `ensureExecuteQuery` before the delivery loop: create
the statement, run the query, skip `counter` rows.  Returns the statement variable and,
on normal completion, the result set, `rows_available` and the cursor position. -/
def queryPrologue (w : QueryWorld) (fuel : Nat) (counter : Nat) (s : Session) :
    Option Nat × Res (RsHandle × Bool × Nat) :=
  match createStatement w.conn fuel w.create s with
  | .ret stmt s1 =>
    match executeQuery w.conn fuel w.query stmt s1 with
    | .ret rs s2 =>
      match skipRows w.nextO rs counter 0 s2 with
      | .ret (avail, pos) s3 => (some stmt, .ret (rs, avail, pos) s3)
      | .raise e s3 => (some stmt, .raise e s3)
      | .hang => (some stmt, .hang)
      | .ub => (some stmt, .ub)
    | .raise e s2 => (some stmt, .raise e s2)
    | .hang => (some stmt, .hang)
    | .ub => (some stmt, .ub)
  | .raise e s1 => (none, .raise e s1)
  | .hang => (none, .hang)
  | .ub => (none, .ub)

/-- The `try` block of one attempt of `ensureExecuteQuery`, up to and including the
delivery loop. -/
def queryTry (w : QueryWorld) (onRow : Nat → RowCb) (fuel : Nat) (counter calls : Nat)
    (s : Session) : Option Nat × Option RsHandle × Delivered :=
  match queryPrologue w fuel counter s with
  | (stmt, .ret (rs, true, pos) s3) => (stmt, some rs, deliver w.nextO onRow rs fuel counter calls pos s3)
  | (stmt, .ret (rs, false, _) s3) => (stmt, some rs, ⟨counter, calls, .ret () s3⟩)
  | (stmt, .raise e s3) => (stmt, none, ⟨counter, calls, .raise e s3⟩)
  | (stmt, .hang) => (stmt, none, ⟨counter, calls, .hang⟩)
  | (stmt, .ub) => (stmt, none, ⟨counter, calls, .ub⟩)

/-- The three handlers of `ensureExecuteQuery`, up to the `sleep_for`.  A result `ret`
means that the loop goes on to its next iteration. -/
def queryCatch (w : QueryWorld) (hasOnError : Bool) (stmt : Option Nat) (e : Exc)
    (s : Session) : Res Unit :=
  match e with
  | .sql err =>
    if hasOnError then
      match w.onError with
      | .ret _ =>
        afterTerminate (terminateStatement w.term stmt (s.emit [Event.onError err])) fun s1 =>
          .ret () (s1.emit [Event.sleep])
      | .raise x => .raise x (s.emit [Event.onError err])
    else
      afterTerminate (terminateStatement w.term stmt s) fun s1 => .ret () (s1.emit [Event.sleep])
  | .std hasMessage =>
    afterTerminate (terminateStatement w.term stmt
        (if hasMessage then s.emit [Event.log] else s)) fun s1 =>
      .ret () (s1.emit [Event.sleep])
  | .other =>
    afterTerminate (terminateStatement w.term stmt s) fun s1 => .ret () (s1.emit [Event.sleep])

/-- What one iteration of the loop of `ensureExecuteQuery` does once the delivery loop has
ended as `r` says: on normal completion `closeResultSet(resultset); return;`, on an
exception the handler and then the next iteration, `retry`, entered with the values of
`counter` and of the number of callback invocations that the failed attempt left. -/
def queryFinish (w : QueryWorld) (hasOnError : Bool) (retry : Nat → Nat → Session → Res Unit)
    (r : Option Nat × Option RsHandle × Delivered) : Res Unit :=
  match r with
  | (_, rs, ⟨_, _, .ret _ s1⟩) =>
    afterTerminate (closeResultSet w.close w.term rs s1) fun s2 => .ret () s2
  | (stmt, _, ⟨counter1, calls1, .raise e s1⟩) =>
    match queryCatch w hasOnError stmt e s1 with
    | .ret _ s2 => retry counter1 calls1 s2
    | .raise x s2 => .raise x s2
    | .hang => .hang
    | .ub => .ub
  | (_, _, ⟨_, _, .hang⟩) => .hang
  | (_, _, ⟨_, _, .ub⟩) => .ub

/-- The loop `while (true)` of `occi11::ensureExecuteQuery`: `counter` is the local
variable, `calls` the number of invocations of `on_result` made so far in this call, `a`
the number of the attempt. -/
def ensureExecuteQueryLoop (ws : Nat → QueryWorld) (onRow : Nat → RowCb) (fuel : Nat)
    (hasOnError : Bool) : Nat → Nat → Nat → Nat → Session → Res Unit
  | 0, _, _, _, _ => .hang
  | n + 1, a, counter, calls, s =>
    queryFinish (ws a) hasOnError
      (fun counter1 calls1 s2 =>
        ensureExecuteQueryLoop ws onRow fuel hasOnError n (a + 1) counter1 calls1 s2)
      (queryTry (ws a) onRow fuel counter calls s)

/-- The member function `occi11::ensureExecuteQuery(str, on_result, on_error)`. -/
def ensureExecuteQuery (ws : Nat → QueryWorld) (onRow : Nat → RowCb) (fuel : Nat)
    (hasOnError : Bool) (s : Session) : Res Unit :=
  ensureExecuteQueryLoop ws onRow fuel hasOnError fuel 0 0 0 s

/-! ## Observations on traces -/

/-- Events that the connection loop of `reconnect` can add to the trace. -/
def Event.isConn : Event → Bool
  | .createEnvironment => true
  | .createConnection => true
  | .setStmtCacheSize => true
  | .sleep => true
  | .log => true
  | _ => false

/-- An entry into `reconnect`. -/
def Event.isReconnect : Event → Bool
  | .reconnect _ => true
  | _ => false

/-- An invocation of `on_error`. -/
def Event.isOnError : Event → Bool
  | .onError _ => true
  | _ => false

/-- The session `t` is `s` after a successful run of the connection loop: a connection is
open, the registries are those of `s`, and the trace of `s` is extended by connection
events only. -/
def Reconnected (s t : Session) : Prop :=
  t.conn.isSome = true ∧ t.statements = s.statements ∧ t.resultsets = s.resultsets ∧
    ∃ extra, t.trace = s.trace ++ extra ∧ ∀ e ∈ extra, e.isConn = true

/-! ## Sample sessions and databases -/

/-- A connected session with an empty registry. -/
def demoSession : Session :=
  { env := some 0, conn := some 1, statements := [], resultsets := [], fresh := 2, trace := [] }

/-- A connected session in which statement 5 is registered. -/
def demoSession5 : Session :=
  { env := some 0, conn := some 1, statements := [5], resultsets := [], fresh := 6, trace := [] }

/-- A database that accepts every connection attempt. -/
def dbUp : ConnWorld :=
  { createEnvironment := fun _ => none, createConnection := fun _ => ConnOutcome.connected }

/-- A database that refuses every connection attempt with ORA-12541 (no listener). -/
def dbDown : ConnWorld :=
  { createEnvironment := fun _ => none
    createConnection := fun _ => ConnOutcome.error { code := 12541, batch := false } }

/-- A database that refuses the first connection attempt and accepts the second. -/
def dbFlaky : ConnWorld :=
  { createEnvironment := fun _ => none
    createConnection := fun j =>
      if j = 0 then ConnOutcome.error { code := 12541, batch := false } else ConnOutcome.connected }

/-- A cursor over `n` rows that never fails. -/
def rowsOf (n : Nat) : Nat → Except SqlErr RsStatus :=
  fun p => Except.ok (if p < n then RsStatus.DATA_AVAILABLE else RsStatus.END_OF_FETCH)

/-- A healthy database for one text-based call on a three-row result. -/
def dbRows3 : StmtWorld :=
  { conn := dbUp, create := none, term := none, close := none, nextO := rowsOf 3 }

/-- A database on which the first fetch fails with the fatal ORA-01555. -/
def dbFetchFails : StmtWorld :=
  { conn := dbUp, create := none, term := none, close := none
    nextO := fun _ => Except.error { code := 1555, batch := false } }

/-- A callback that fetches one row and throws `std::runtime_error` on every invocation. -/
def cbThrows : Nat → RowCb :=
  fun _ => { nexts := 1, fin := CbFin.raise (Exc.std true) }

/-- A callback that fetches one row and returns `true`. -/
def cbMore : Nat → RowCb :=
  fun _ => { nexts := 1, fin := CbFin.ret true }

/-- Attempts of `ensureExecute`: the first `stmt->execute()` throws a `BatchSQLException`
(ORA-24381), the second succeeds; every callback returns. -/
def dbBatchThenOk : Nat → AttemptWorld :=
  fun a =>
    { conn := dbUp, create := none
      execute := if a = 0 then Except.error { code := 24381, batch := true }
                 else Except.ok Status.UPDATE_COUNT_AVAILABLE
      update := Except.ok 0, term := none
      onCreateStatement := CbFin.ret (), onError := CbFin.ret (), onBatchError := CbFin.ret () }

/-- The events of `m` invocations of a callback that fetches one row per invocation. -/
def rowEvents (rs : RsHandle) : Nat → List Event
  | 0 => []
  | m + 1 => Event.onResult rs :: Event.rsNext rs :: rowEvents rs m

/-- An event made by a handler or by the closing of a result set: an `on_error`
invocation, a log line, a sleep, a terminate or a close call. -/
def Event.isCleanup : Event → Bool
  | .onError _ => true
  | .log => true
  | .sleep => true
  | .connTerminateStatement _ => true
  | .stmtCloseResultSet _ => true
  | _ => false

/-- A call to `conn->createStatement`. -/
def Event.isCreateStatement : Event → Bool
  | .connCreateStatement => true
  | _ => false

/-- An attempt of `ensureExecuteUpdate` in world `w` fails with a database error and the
loop goes on: statement creation or the update throws an `SQLException`; if its code is
transient, the reconnect it triggers finds the database within `B` connection attempts;
and `on_error`, if invoked, returns or throws something derived from `std::exception`. -/
def FailsWithDbError (B : Nat) (w : AttemptWorld) : Prop :=
  (∃ e, (w.create = some e ∨ (w.create = none ∧ w.update = Except.error e)) ∧
    (isTransient e.code = true →
      ∃ j, j < B ∧ w.conn.createEnvironment j = none ∧
        w.conn.createConnection j = ConnOutcome.connected)) ∧
  w.onError ≠ CbFin.raise Exc.other

/-- Attempts of `ensureExecuteUpdate`: the update fails twice with the transient
ORA-03113, then reports 7 rows. -/
def dbTwoFailures : Nat → AttemptWorld :=
  fun a =>
    { conn := dbUp, create := none, execute := Except.ok Status.UPDATE_COUNT_AVAILABLE
      update := if a < 2 then Except.error { code := 3113, batch := false } else Except.ok 7
      term := none
      onCreateStatement := CbFin.ret (), onError := CbFin.ret (), onBatchError := CbFin.ret () }

/-- Attempts of `ensureExecuteQuery` on a healthy database whose query yields the same
ten rows at every execution. -/
def dbTenRows : Nat → QueryWorld :=
  fun _ =>
    { conn := dbUp, create := none, query := Except.ok (), nextO := rowsOf 10, close := none
      term := none, onError := CbFin.ret () }

/-- A callback that fetches one row per invocation, returns `true` five times, throws
`std::runtime_error` on its sixth invocation, returns `true` on the next two and `false`
on the ninth. -/
def cbFailsAtSixth : Nat → RowCb :=
  fun k =>
    { nexts := 1
      fin := if k = 5 then CbFin.raise (Exc.std true) else CbFin.ret (decide (k < 8)) }

/-- Attempts of `ensureExecuteQuery` on a healthy database whose query yields the same
2147483649 rows at every execution. -/
def dbManyRows : Nat → QueryWorld :=
  fun _ =>
    { conn := dbUp, create := none, query := Except.ok (), nextO := rowsOf 2147483649
      close := none, term := none, onError := CbFin.ret () }

/-- A callback that fetches one row per invocation, returns `true` on its first 2147483648
invocations and throws `std::runtime_error` on the next. -/
def cbFailsLate : Nat → RowCb :=
  fun k =>
    { nexts := 1
      fin := if k < 2147483648 then CbFin.ret true else CbFin.raise (Exc.std true) }

theorem connectOnce_registry (w : ConnWorld) (j : Nat) (s : Session) :
    (connectOnce w j s).1.statements = s.statements ∧
    (connectOnce w j s).1.resultsets = s.resultsets := by
  unfold connectOnce
  cases hs : s.env <;> cases hE : w.createEnvironment j <;> cases hC : w.createConnection j <;>
    simp [Session.emit]

theorem connectOnce_trace (w : ConnWorld) (j : Nat) (s : Session) :
    ∃ extra, (connectOnce w j s).1.trace = s.trace ++ extra ∧ ∀ e ∈ extra, e.isConn = true := by
  unfold connectOnce
  cases hs : s.env <;> cases hE : w.createEnvironment j <;> cases hC : w.createConnection j <;>
    simp [Session.emit, Event.isConn]

theorem connectOnce_success (w : ConnWorld) (j : Nat) (s : Session)
    (hE : w.createEnvironment j = none) (hC : w.createConnection j = ConnOutcome.connected) :
    (connectOnce w j s).2 = true ∧ (connectOnce w j s).1.conn.isSome = true := by
  unfold connectOnce
  cases hs : s.env <;> simp [hE, hC]

theorem connectOnce_conn_of_true (w : ConnWorld) (j : Nat) (s : Session)
    (h : (connectOnce w j s).2 = true) : (connectOnce w j s).1.conn.isSome = true := by
  unfold connectOnce at h ⊢
  cases hs : s.env <;> cases hE : w.createEnvironment j <;> cases hC : w.createConnection j <;>
    simp_all [Session.emit]

theorem connectOnce_conn_of_false (w : ConnWorld) (j : Nat) (s : Session)
    (h : (connectOnce w j s).2 = false) : (connectOnce w j s).1.conn = s.conn := by
  unfold connectOnce at h ⊢
  cases hs : s.env <;> cases hE : w.createEnvironment j <;> cases hC : w.createConnection j <;>
    simp_all [Session.emit]

theorem Reconnected.trans_emit {s s1 t : Session} (evs : List Event)
    (hreg : s1.statements = s.statements ∧ s1.resultsets = s.resultsets)
    (htr : ∃ extra, s1.trace = s.trace ++ extra ∧ ∀ e ∈ extra, e.isConn = true)
    (hev : ∀ e ∈ evs, e.isConn = true)
    (h : Reconnected (s1.emit evs) t) : Reconnected s t := by
  obtain ⟨hc, hst, hrs, extra, htrace, hall⟩ := h
  obtain ⟨extra1, htr1, hall1⟩ := htr
  refine ⟨hc, ?_, ?_, extra1 ++ evs ++ extra, ?_, ?_⟩
  · simpa [Session.emit, hreg.1] using hst
  · simpa [Session.emit, hreg.2] using hrs
  · simp [htrace, Session.emit, htr1, List.append_assoc]
  · intro e he
    simp only [List.mem_append] at he
    rcases he with (he | he) | he
    · exact hall1 e he
    · exact hev e he
    · exact hall e he

/-- The connection loop with `retry = true` returns as soon as an iteration finds both
`createEnvironment` and `createConnection` successful. -/
theorem reconnectLoop_returns (w : ConnWorld) (j : Nat)
    (hE : w.createEnvironment j = none) (hC : w.createConnection j = ConnOutcome.connected) :
    ∀ (d j0 : Nat) (s : Session), j0 + d = j → s.conn = none →
      ∃ t, Reconnected s t ∧ ∀ fuel, d < fuel → reconnectLoop w true fuel j0 s = Res.ret () t := by
  intro d
  induction d with
  | zero =>
    intro j0 s hj hs
    simp only [Nat.add_zero] at hj
    subst hj
    obtain ⟨h2, h1⟩ := connectOnce_success w j0 s hE hC
    refine ⟨(connectOnce w j0 s).1, ⟨h1, (connectOnce_registry w j0 s).1,
      (connectOnce_registry w j0 s).2, connectOnce_trace w j0 s⟩, ?_⟩
    intro fuel hf
    obtain ⟨f, rfl⟩ : ∃ f, fuel = f + 1 := ⟨fuel - 1, by omega⟩
    cases hco : connectOnce w j0 s with
    | mk s1 b =>
      rw [hco] at h2
      simp only at h2
      subst h2
      simp [reconnectLoop, hs, hco]
  | succ d ih =>
    intro j0 s hj hs
    cases hco : connectOnce w j0 s with
    | mk s1 b =>
      cases b with
      | true =>
        have h1 := connectOnce_conn_of_true w j0 s (by rw [hco])
        refine ⟨(connectOnce w j0 s).1, ⟨h1, (connectOnce_registry w j0 s).1,
          (connectOnce_registry w j0 s).2, connectOnce_trace w j0 s⟩, ?_⟩
        intro fuel hf
        obtain ⟨f, rfl⟩ : ∃ f, fuel = f + 1 := ⟨fuel - 1, by omega⟩
        simp [reconnectLoop, hs, hco]
      | false =>
        have hc1 : s1.conn = none := by
          have := connectOnce_conn_of_false w j0 s (by rw [hco])
          rw [hco] at this
          simpa [hs] using this
        have hreg := connectOnce_registry w j0 s
        have htr := connectOnce_trace w j0 s
        rw [hco] at hreg htr
        obtain ⟨t, ht, hrun⟩ := ih (j0 + 1) (s1.emit [Event.log, Event.sleep]) (by omega)
          (by simpa [Session.emit] using hc1)
        refine ⟨t, Reconnected.trans_emit [Event.log, Event.sleep] hreg htr
          (by simp [Event.isConn]) ht, ?_⟩
        intro fuel hf
        obtain ⟨f, rfl⟩ : ∃ f, fuel = f + 1 := ⟨fuel - 1, by omega⟩
        simp only [reconnectLoop, hs, hco]
        simpa using hrun f (by omega)

/-- The connection loop never ends while every `createConnection` fails to give a
connection and `retry` is true. -/
theorem reconnectLoop_hangs (w : ConnWorld)
    (hC : ∀ j, w.createConnection j ≠ ConnOutcome.connected) :
    ∀ (fuel j : Nat) (s : Session), s.conn = none → reconnectLoop w true fuel j s = Res.hang := by
  intro fuel
  induction fuel with
  | zero => intro j s _; rfl
  | succ f ih =>
    intro j s hs
    have hfalse : (connectOnce w j s).2 = false := by
      unfold connectOnce
      cases hs : s.env <;> cases hE : w.createEnvironment j <;>
        cases hC1 : w.createConnection j <;> simp_all
    cases hco : connectOnce w j s with
    | mk s1 b =>
      rw [hco] at hfalse
      simp only at hfalse
      subst hfalse
      have hc1 : s1.conn = none := by
        have := connectOnce_conn_of_false w j s (by rw [hco])
        rw [hco] at this
        simpa [hs] using this
      simp only [reconnectLoop, hs, hco]
      simpa using ih (j + 1) (s1.emit [Event.log, Event.sleep]) (by simpa [Session.emit] using hc1)

/-- Whatever way the connection loop ends, the registries are those it started with. -/
theorem reconnectLoop_registry (w : ConnWorld) (retry : Bool) :
    ∀ (fuel j : Nat) (s t : Session),
      ((∃ u, reconnectLoop w retry fuel j s = Res.ret u t) ∨
        (∃ e, reconnectLoop w retry fuel j s = Res.raise e t)) →
      t.statements = s.statements ∧ t.resultsets = s.resultsets := by
  intro fuel
  induction fuel with
  | zero => intro j s t h; simp [reconnectLoop] at h
  | succ f ih =>
    intro j s t h
    cases hs : s.conn with
    | some c =>
      simp [reconnectLoop, hs] at h
      subst h
      exact ⟨rfl, rfl⟩
    | none =>
      have hreg := connectOnce_registry w j s
      cases hco : connectOnce w j s with
      | mk s1 b =>
        rw [hco] at hreg
        cases b with
        | true =>
          simp [reconnectLoop, hs, hco] at h
          subst h
          exact hreg
        | false =>
          cases retry with
          | true =>
            simp only [reconnectLoop, hs, hco] at h
            have := ih (j + 1) (s1.emit [Event.log, Event.sleep]) t (by simpa using h)
            simp only [Session.emit] at this
            exact ⟨this.1.trans hreg.1, this.2.trans hreg.2⟩
          | false =>
            simp [reconnectLoop, hs, hco] at h
            subst h
            simpa [Session.emit] using hreg

theorem countP_conn_events (p : Event → Bool) (extra : List Event)
    (h : ∀ e ∈ extra, e.isConn = true) (hp : ∀ e, e.isConn = true → p e = false) :
    extra.countP p = 0 := by
  rw [List.countP_eq_zero]
  intro e he
  simp [hp e (h e he)]

/-! ## Lemmas on `handle_exception` -/

theorem handle_exception_fatal {α : Type} (w : ConnWorld) (fuel : Nat) (e : SqlErr)
    (stmt : Option Nat) (s : Session) (h : isTransient e.code = false) :
    (handle_exception w fuel e stmt s : Res α) = Res.raise (Exc.sql e.sliced) s := by
  simp [handle_exception, h]

/-- A transient error on a registered statement (or with no statement) is re-raised after
one run of the connection loop, provided some iteration of the loop can succeed. -/
theorem handle_exception_transient (w : ConnWorld) (j : Nat)
    (hE : w.createEnvironment j = none) (hC : w.createConnection j = ConnOutcome.connected)
    (e : SqlErr) (stmt : Option Nat) (s : Session) (h : isTransient e.code = true)
    (hreg : ∀ x, stmt = some x → x ∈ s.statements) :
    ∃ t, Reconnected (reconnectReset true s) t ∧
      ∀ (α : Type) (fuel : Nat), j < fuel →
        (handle_exception w fuel e stmt s : Res α) = Res.raise (Exc.sql e.sliced) t := by
  obtain ⟨t, ht, hrun⟩ := reconnectLoop_returns w j hE hC j 0 (reconnectReset true s)
    (by omega) (by simp [reconnectReset])
  refine ⟨t, ht, ?_⟩
  intro α fuel hf
  have hcond : stmtLive stmt s = true := by
    cases stmt with
    | none => rfl
    | some x => simpa [stmtLive] using hreg x rfl
  simp [handle_exception, h, hcond, reconnect, hrun fuel hf]

theorem reconnected_reset_count (s t : Session) (retry : Bool)
    (h : Reconnected (reconnectReset retry s) t) :
    t.trace.countP Event.isReconnect = s.trace.countP Event.isReconnect + 1 ∧
    t.statements = [] ∧ t.resultsets = [] ∧ t.conn.isSome = true := by
  obtain ⟨hc, hst, hrs, extra, htrace, hall⟩ := h
  refine ⟨?_, by simpa [reconnectReset] using hst, by simpa [reconnectReset] using hrs, hc⟩
  have h0 := countP_conn_events Event.isReconnect extra hall
    (by intro e he; cases e <;> simp_all [Event.isConn, Event.isReconnect])
  rw [htrace]
  cases hs : s.env <;>
    simp [reconnectReset, hs, List.countP_append, List.countP_cons, Event.isReconnect, h0]

theorem connectOnce_sleeps (w : ConnWorld) (j : Nat) (s : Session) :
    (connectOnce w j s).1.trace.count Event.sleep = s.trace.count Event.sleep ∧
    (connectOnce w j s).1.trace.count Event.log = s.trace.count Event.log := by
  unfold connectOnce
  cases hs : s.env <;> cases hE : w.createEnvironment j <;> cases hC : w.createConnection j <;>
    simp [Session.emit, List.count_append]

theorem connectOnce_fails (w : ConnWorld) (j : Nat) (s : Session)
    (hC : w.createConnection j ≠ ConnOutcome.connected) : (connectOnce w j s).2 = false := by
  unfold connectOnce
  cases hs : s.env <;> cases hE : w.createEnvironment j <;>
    cases hC1 : w.createConnection j <;> simp_all

/-- When the first `k` iterations fail to get a connection and the next one succeeds, the
connection loop with `retry = true` sleeps and logs exactly `k` times. -/
theorem reconnectLoop_counts (w : ConnWorld) :
    ∀ (k j0 : Nat) (s : Session),
      (∀ i, i < k → w.createConnection (j0 + i) ≠ ConnOutcome.connected) →
      w.createEnvironment (j0 + k) = none →
      w.createConnection (j0 + k) = ConnOutcome.connected → s.conn = none →
      ∃ t, (∀ fuel, k < fuel → reconnectLoop w true fuel j0 s = Res.ret () t) ∧
        t.trace.count Event.sleep = s.trace.count Event.sleep + k ∧
        t.trace.count Event.log = s.trace.count Event.log + k := by
  intro k
  induction k with
  | zero =>
    intro j0 s _ hE hC hs
    simp only [Nat.add_zero] at hE hC
    obtain ⟨h2, _⟩ := connectOnce_success w j0 s hE hC
    refine ⟨(connectOnce w j0 s).1, ?_, by simpa using (connectOnce_sleeps w j0 s).1,
      by simpa using (connectOnce_sleeps w j0 s).2⟩
    intro fuel hf
    obtain ⟨f, rfl⟩ : ∃ f, fuel = f + 1 := ⟨fuel - 1, by omega⟩
    cases hco : connectOnce w j0 s with
    | mk s1 b =>
      rw [hco] at h2
      simp only at h2
      subst h2
      simp [reconnectLoop, hs, hco]
  | succ k ih =>
    intro j0 s hfail hE hC hs
    have hfalse := connectOnce_fails w j0 s (by simpa using hfail 0 (by omega))
    have hcnt := connectOnce_sleeps w j0 s
    cases hco : connectOnce w j0 s with
    | mk s1 b =>
      rw [hco] at hfalse hcnt
      simp only at hfalse hcnt
      subst hfalse
      have hc1 : s1.conn = none := by
        have := connectOnce_conn_of_false w j0 s (by rw [hco])
        rw [hco] at this
        simpa [hs] using this
      obtain ⟨t, hrun, hsl, hlg⟩ := ih (j0 + 1) (s1.emit [Event.log, Event.sleep])
        (by
          intro i hi
          have := hfail (i + 1) (by omega)
          rwa [show j0 + (i + 1) = j0 + 1 + i by omega] at this)
        (by rwa [show j0 + 1 + k = j0 + (k + 1) by omega])
        (by rwa [show j0 + 1 + k = j0 + (k + 1) by omega])
        (by simpa [Session.emit] using hc1)
      refine ⟨t, ?_, ?_, ?_⟩
      · intro fuel hf
        obtain ⟨f, rfl⟩ : ∃ f, fuel = f + 1 := ⟨fuel - 1, by omega⟩
        simp only [reconnectLoop, hs, hco]
        simpa using hrun f (by omega)
      · rw [hsl]
        simp [Session.emit, List.count_append, hcnt.1]
        omega
      · rw [hlg]
        simp [Session.emit, List.count_append, hcnt.2]
        omega

/-! ## The claims -/

/-- C1 (as amended): a single-attempt `execute`, `executeQuery` or `executeUpdate` on a
registered statement whose underlying call fails with error `e` never returns a value.
If the code of `e` is outside the transient set, it re-raises the error at once, having
made no call to `reconnect`.  If the code is in the transient set and some connection
attempt can succeed, it re-raises the error (same code) after exactly one call to
`reconnect`.  If the code is in the transient set and no connection attempt ever yields a
connection, the call stays inside `reconnect` whatever the fuel, and raises nothing. -/
theorem single_attempt_reraises (w : ConnWorld) (e : SqlErr) (stmt : Nat) (s : Session)
    (hreg : stmt ∈ s.statements) :
    (isTransient e.code = false → ∀ fuel,
      execute w fuel (Except.error e) stmt s
        = Res.raise (Exc.sql ⟨e.code, false⟩) (s.emit [Event.stmtExecute stmt]) ∧
      executeQuery w fuel (Except.error e) stmt s
        = Res.raise (Exc.sql ⟨e.code, false⟩) (s.emit [Event.stmtExecuteQuery stmt]) ∧
      executeUpdate w fuel (Except.error e) stmt s
        = Res.raise (Exc.sql ⟨e.code, false⟩) (s.emit [Event.stmtExecuteUpdate stmt]) ∧
      (s.emit [Event.stmtExecute stmt]).trace.countP Event.isReconnect
        = s.trace.countP Event.isReconnect ∧
      (s.emit [Event.stmtExecuteQuery stmt]).trace.countP Event.isReconnect
        = s.trace.countP Event.isReconnect ∧
      (s.emit [Event.stmtExecuteUpdate stmt]).trace.countP Event.isReconnect
        = s.trace.countP Event.isReconnect) ∧
    (isTransient e.code = true → ∀ j, w.createEnvironment j = none →
      w.createConnection j = ConnOutcome.connected →
      ∃ t1 t2 t3,
        (∀ fuel, j < fuel →
          execute w fuel (Except.error e) stmt s = Res.raise (Exc.sql ⟨e.code, false⟩) t1 ∧
          executeQuery w fuel (Except.error e) stmt s = Res.raise (Exc.sql ⟨e.code, false⟩) t2 ∧
          executeUpdate w fuel (Except.error e) stmt s = Res.raise (Exc.sql ⟨e.code, false⟩) t3) ∧
        t1.trace.countP Event.isReconnect = s.trace.countP Event.isReconnect + 1 ∧
        t2.trace.countP Event.isReconnect = s.trace.countP Event.isReconnect + 1 ∧
        t3.trace.countP Event.isReconnect = s.trace.countP Event.isReconnect + 1) ∧
    (isTransient e.code = true → (∀ j, w.createConnection j ≠ ConnOutcome.connected) →
      ∀ fuel,
        execute w fuel (Except.error e) stmt s = Res.hang ∧
        executeQuery w fuel (Except.error e) stmt s = Res.hang ∧
        executeUpdate w fuel (Except.error e) stmt s = Res.hang) := by
  refine ⟨?_, ?_, ?_⟩
  · intro h fuel
    refine ⟨?_, ?_, ?_, ?_⟩
    · simp [execute, handle_exception, h, SqlErr.sliced]
    · simp [executeQuery, handle_exception, h, SqlErr.sliced]
    · simp [executeUpdate, handle_exception, h, SqlErr.sliced]
    · simp [Session.emit, List.countP_append, List.countP_cons, Event.isReconnect]
  · intro h j hE hC
    obtain ⟨t1, ht1, hrun1⟩ := handle_exception_transient w j hE hC e (some stmt)
      (s.emit [Event.stmtExecute stmt]) h (by intro x hx; cases hx; simpa [Session.emit] using hreg)
    obtain ⟨t2, ht2, hrun2⟩ := handle_exception_transient w j hE hC e (some stmt)
      (s.emit [Event.stmtExecuteQuery stmt]) h
      (by intro x hx; cases hx; simpa [Session.emit] using hreg)
    obtain ⟨t3, ht3, hrun3⟩ := handle_exception_transient w j hE hC e (some stmt)
      (s.emit [Event.stmtExecuteUpdate stmt]) h
      (by intro x hx; cases hx; simpa [Session.emit] using hreg)
    refine ⟨t1, t2, t3, ?_, ?_, ?_, ?_⟩
    · intro fuel hf
      refine ⟨?_, ?_, ?_⟩
      · simpa [execute, SqlErr.sliced] using hrun1 Status fuel hf
      · simpa [executeQuery, SqlErr.sliced] using hrun2 RsHandle fuel hf
      · simpa [executeUpdate, SqlErr.sliced] using hrun3 Nat fuel hf
    · rw [(reconnected_reset_count _ _ _ ht1).1]
      simp [Session.emit, List.countP_append, List.countP_cons, Event.isReconnect]
    · rw [(reconnected_reset_count _ _ _ ht2).1]
      simp [Session.emit, List.countP_append, List.countP_cons, Event.isReconnect]
    · rw [(reconnected_reset_count _ _ _ ht3).1]
      simp [Session.emit, List.countP_append, List.countP_cons, Event.isReconnect]
  · intro h hdown fuel
    have hlive : ∀ evs, stmtLive (some stmt) (s.emit evs) = true := by
      intro evs
      simpa [stmtLive, Session.emit] using hreg
    have hhang : ∀ evs, reconnect w fuel true (s.emit evs) = Res.hang := by
      intro evs
      exact reconnectLoop_hangs w hdown fuel 0 _ (by simp [reconnectReset])
    refine ⟨?_, ?_, ?_⟩
    · simp [execute, handle_exception, h, hlive, hhang]
    · simp [executeQuery, handle_exception, h, hlive, hhang]
    · simp [executeUpdate, handle_exception, h, hlive, hhang]

/-- C1, witness: statement 5 fails with the fatal ORA-00942 and with the transient
ORA-03113 on a database that accepts connections. -/
theorem single_attempt_reraises_witness :
    execute dbUp 1 (Except.error ⟨942, false⟩) 5 demoSession5
        = Res.raise (Exc.sql ⟨942, false⟩) (demoSession5.emit [Event.stmtExecute 5]) ∧
    ∃ t1, execute dbUp 1 (Except.error ⟨3113, false⟩) 5 demoSession5
        = Res.raise (Exc.sql ⟨3113, false⟩) t1 ∧
      t1.trace.countP Event.isReconnect = 1 := by
  have h := single_attempt_reraises dbUp ⟨942, false⟩ 5 demoSession5 (by decide)
  have h2 := single_attempt_reraises dbUp ⟨3113, false⟩ 5 demoSession5 (by decide)
  refine ⟨(h.1 (by decide) 1).1, ?_⟩
  obtain ⟨t1, _, _, hrun, hc, _, _⟩ := h2.2.1 (by decide) 0 rfl rfl
  exact ⟨t1, (hrun 1 (by decide)).1, by simpa [demoSession5] using hc⟩

/-- C1, counterexample: `executeUpdate` on the registered statement 5 fails with the
transient ORA-00028 while the database refuses every connection: whatever the fuel, the
call is still inside `reconnect`, so the error is never re-raised. -/
theorem single_attempt_can_block :
    (fun fuel => executeUpdate dbDown fuel (Except.error ⟨28, false⟩) 5 demoSession5)
      = fun _ => Res.hang := by
  funext fuel
  have h := reconnectLoop_hangs dbDown (by intro j; simp [dbDown]) fuel 0
    (reconnectReset true (demoSession5.emit [Event.stmtExecuteUpdate 5])) (by simp [reconnectReset])
  simp [executeUpdate, handle_exception, isTransient, stmtLive, demoSession5, Session.emit,
    reconnect] at h ⊢
  rw [h]

/-- C4: however an invocation of `reconnect` ends (a connection is established, or a
connection failure is raised), both registries are empty afterwards, so every statement
and result set registered before the invocation is absent; they are already empty in the
state `reconnectReset` hands to the first connection attempt. -/
theorem reconnect_invalidates_registry (w : ConnWorld) (fuel : Nat) (retry : Bool)
    (s t : Session)
    (h : (∃ u, reconnect w fuel retry s = Res.ret u t) ∨
      (∃ e, reconnect w fuel retry s = Res.raise e t)) :
    (reconnectReset retry s).statements = [] ∧ (reconnectReset retry s).resultsets = [] ∧
    t.statements = [] ∧ t.resultsets = [] ∧
    (∀ st ∈ s.statements, st ∉ t.statements) ∧ (∀ rs ∈ s.resultsets, rs ∉ t.resultsets) := by
  have hreg := reconnectLoop_registry w retry fuel 0 (reconnectReset retry s) t h
  have h1 : t.statements = [] := by simpa [reconnectReset] using hreg.1
  have h2 : t.resultsets = [] := by simpa [reconnectReset] using hreg.2
  refine ⟨rfl, rfl, h1, h2, ?_, ?_⟩
  · intro st _
    simp [h1]
  · intro rs _
    simp [h2]

/-- C4, witness: a one-shot reconnect of a session holding statement 5 against a database
that refuses the connection raises, and leaves the registry empty. -/
theorem reconnect_invalidates_registry_witness :
    reconnect dbDown 1 false demoSession5 = Res.raise (Exc.std true)
        { env := some 6, conn := none, statements := [], resultsets := [], fresh := 7,
          trace := [Event.reconnect false, Event.terminateEnvironment, Event.createEnvironment,
            Event.createConnection, Event.log] } ∧
      (5 : Nat) ∉ ([] : List Nat) := by
  refine ⟨by decide, ?_⟩
  have h := reconnect_invalidates_registry dbDown 1 false demoSession5
    { env := some 6, conn := none, statements := [], resultsets := [], fresh := 7,
      trace := [Event.reconnect false, Event.terminateEnvironment, Event.createEnvironment,
        Event.createConnection, Event.log] }
    (Or.inr ⟨Exc.std true, by decide⟩)
  exact h.2.2.2.2.1 5 (by decide)

theorem reconnectLoop_true_no_raise (w : ConnWorld) :
    ∀ (fuel j : Nat) (s : Session) (e : Exc) (t : Session),
      reconnectLoop w true fuel j s ≠ Res.raise e t := by
  intro fuel
  induction fuel with
  | zero => intro j s e t; simp [reconnectLoop]
  | succ f ih =>
    intro j s e t
    cases hs : s.conn with
    | some c => simp [reconnectLoop, hs]
    | none =>
      cases hco : connectOnce w j s with
      | mk s1 b =>
        cases b with
        | true => simp [reconnectLoop, hs, hco]
        | false =>
          simp only [reconnectLoop, hs, hco]
          simpa using ih (j + 1) (s1.emit [Event.log, Event.sleep]) e t

/-- C5 (as amended): the reconnect made by `handle_exception` for a transient error on a
registered statement (or with no statement) is not bounded.  It never ends with a connection
failure; when the first `k` connection attempts fail and the next one succeeds, it writes
`k` failure messages, sleeps the back-off `k` times, and only then is the original error
re-raised. -/
theorem transient_reconnect_retries (w : ConnWorld) (k : Nat) (e : SqlErr) (stmt : Option Nat)
    (s : Session) (htr : isTransient e.code = true)
    (hreg : ∀ x, stmt = some x → x ∈ s.statements)
    (hfail : ∀ i, i < k → w.createConnection i ≠ ConnOutcome.connected)
    (hE : w.createEnvironment k = none) (hC : w.createConnection k = ConnOutcome.connected) :
    (∃ t, (∀ (α : Type) (fuel : Nat), k < fuel →
          (handle_exception w fuel e stmt s : Res α) = Res.raise (Exc.sql e.sliced) t) ∧
        t.trace.count Event.sleep = s.trace.count Event.sleep + k ∧
        t.trace.count Event.log = s.trace.count Event.log + k) ∧
    ∀ (α : Type) (fuel : Nat) (x : Bool) (t : Session),
      (handle_exception w fuel e stmt s : Res α) ≠ Res.raise (Exc.std x) t := by
  have hlive : stmtLive stmt s = true := by
    cases stmt with
    | none => rfl
    | some x => simpa [stmtLive] using hreg x rfl
  constructor
  · obtain ⟨t, hrun, hsl, hlg⟩ := reconnectLoop_counts w k 0 (reconnectReset true s)
      (by simpa using hfail) (by simpa using hE) (by simpa using hC) (by simp [reconnectReset])
    refine ⟨t, ?_, ?_, ?_⟩
    · intro α fuel hf
      simp [handle_exception, htr, hlive, reconnect, hrun fuel hf]
    · rw [hsl]
      cases hs : s.env <;> simp [reconnectReset, hs, List.count_append]
    · rw [hlg]
      cases hs : s.env <;> simp [reconnectReset, hs, List.count_append]
  · intro α fuel x t
    simp only [handle_exception, htr, hlive, reconnect, if_true]
    cases hr : reconnectLoop w true fuel 0 (reconnectReset true s) with
    | ret u t1 => simp
    | raise e1 t1 => exact absurd hr (reconnectLoop_true_no_raise w fuel 0 _ e1 t1)
    | hang => simp
    | ub => simp

/-- C5, witness: ORA-03113 on the registered statement 5 while the database refuses the
first connection attempt and accepts the second: one sleep, then the error. -/
theorem transient_reconnect_retries_witness :
    ∃ t, handle_exception dbFlaky 2 ⟨3113, false⟩ (some 5) demoSession5
        = (Res.raise (Exc.sql ⟨3113, false⟩) t : Res Status) ∧
      t.trace.count Event.sleep = 1 := by
  obtain ⟨⟨t, hrun, hsl, _⟩, _⟩ := transient_reconnect_retries dbFlaky 1 ⟨3113, false⟩ (some 5)
    demoSession5 (by decide) (by intro x hx; cases hx; decide)
    (by intro i hi; obtain rfl : i = 0 := by omega
        decide) rfl rfl
  exact ⟨t, hrun Status 2 (by decide), by simpa [demoSession5] using hsl⟩

/-- C5, counterexample: `execute` on the registered statement 5 fails with ORA-03113 and
the first attempt to re-establish the connection fails.  The call does not fail hard: it
logs, sleeps, makes a second connection attempt, and ends with the original error. -/
theorem execute_reconnect_not_bounded :
    execute dbFlaky 2 (Except.error ⟨3113, false⟩) 5 demoSession5
      = Res.raise (Exc.sql ⟨3113, false⟩)
          { env := some 6, conn := some 7, statements := [], resultsets := [], fresh := 8,
            trace := [Event.stmtExecute 5, Event.reconnect true, Event.terminateEnvironment,
              Event.createEnvironment, Event.createConnection, Event.log, Event.sleep,
              Event.createConnection, Event.setStmtCacheSize] } := by
  decide

/-- C6 (as amended): `commit` and `rollback` return normally, without calling the client,
when no connection is open, and return normally when the underlying call succeeds.  When
the underlying call fails with a database error they re-raise it to the caller: at once if
its code is not transient, and after one call to `reconnect` if it is transient and some
connection attempt can succeed. -/
theorem commit_rollback_outcomes (w : ConnWorld) (r : Option SqlErr) (s : Session) :
    (s.conn = none → ∀ fuel, commit w fuel r s = Res.ret () s ∧ rollback w fuel r s = Res.ret () s) ∧
    (s.conn.isSome = true → r = none → ∀ fuel,
      commit w fuel r s = Res.ret () (s.emit [Event.connCommit]) ∧
      rollback w fuel r s = Res.ret () (s.emit [Event.connRollback])) ∧
    (∀ e, s.conn.isSome = true → r = some e → isTransient e.code = false → ∀ fuel,
      commit w fuel r s = Res.raise (Exc.sql e.sliced) (s.emit [Event.connCommit]) ∧
      rollback w fuel r s = Res.raise (Exc.sql e.sliced) (s.emit [Event.connRollback])) ∧
    (∀ e j, s.conn.isSome = true → r = some e → isTransient e.code = true →
      w.createEnvironment j = none → w.createConnection j = ConnOutcome.connected →
      ∃ t1 t2,
        (∀ fuel, j < fuel → commit w fuel r s = Res.raise (Exc.sql e.sliced) t1 ∧
          rollback w fuel r s = Res.raise (Exc.sql e.sliced) t2) ∧
        t1.trace.countP Event.isReconnect = s.trace.countP Event.isReconnect + 1 ∧
        t2.trace.countP Event.isReconnect = s.trace.countP Event.isReconnect + 1) := by
  refine ⟨?_, ?_, ?_, ?_⟩
  · intro h fuel
    simp [commit, rollback, h]
  · intro h hr fuel
    obtain ⟨c, hc⟩ := Option.isSome_iff_exists.mp h
    simp [commit, rollback, hc, hr]
  · intro e h hr htr fuel
    obtain ⟨c, hc⟩ := Option.isSome_iff_exists.mp h
    simp [commit, rollback, hc, hr, handle_exception, htr]
  · intro e j h hr htr hE hC
    obtain ⟨c, hc⟩ := Option.isSome_iff_exists.mp h
    obtain ⟨t1, ht1, hrun1⟩ := handle_exception_transient w j hE hC e none
      (s.emit [Event.connCommit]) htr (by intro x hx; cases hx)
    obtain ⟨t2, ht2, hrun2⟩ := handle_exception_transient w j hE hC e none
      (s.emit [Event.connRollback]) htr (by intro x hx; cases hx)
    refine ⟨t1, t2, ?_, ?_, ?_⟩
    · intro fuel hf
      simp [commit, rollback, hc, hr, hrun1 Unit fuel hf, hrun2 Unit fuel hf]
    · rw [(reconnected_reset_count _ _ _ ht1).1]
      simp [Session.emit, List.countP_append, List.countP_cons, Event.isReconnect]
    · rw [(reconnected_reset_count _ _ _ ht2).1]
      simp [Session.emit, List.countP_append, List.countP_cons, Event.isReconnect]

/-- C6, witness: `commit` on a connected session whose underlying commit fails with the
fatal ORA-02091 re-raises it. -/
theorem commit_rollback_outcomes_witness :
    commit dbUp 1 (some ⟨2091, false⟩) demoSession
      = Res.raise (Exc.sql ⟨2091, false⟩) (demoSession.emit [Event.connCommit]) :=
  ((commit_rollback_outcomes dbUp (some ⟨2091, false⟩) demoSession).2.2.1 ⟨2091, false⟩
    (by decide) rfl (by decide) 1).1

/-- C6, counterexample: `rollback` on a connected session whose underlying rollback fails
with the transient ORA-03135 reconnects and then raises the error to the caller. -/
theorem rollback_raises :
    rollback dbUp 1 (some ⟨3135, false⟩) demoSession
      = Res.raise (Exc.sql ⟨3135, false⟩)
          { env := some 2, conn := some 3, statements := [], resultsets := [], fresh := 4,
            trace := [Event.connRollback, Event.reconnect true, Event.terminateEnvironment,
              Event.createEnvironment, Event.createConnection, Event.setStmtCacheSize] } := by
  decide

/-- C10 (as amended): `terminateStatement` on a null or unregistered statement changes
nothing (no call to the client, same registry, same connection, nothing raised); and when
the statement is registered, a connection is open and the underlying terminate call
succeeds, a second `terminateStatement` is such a no-op, so that two calls make exactly
one underlying call. -/
theorem terminateStatement_idempotent (r r2 : Option SqlErr) (stmt : Option Nat) (s : Session) :
    ((∀ h, stmt = some h → h ∉ s.statements) → terminateStatement r stmt s = some s) ∧
    (∀ h, stmt = some h → h ∈ s.statements → s.conn.isSome = true →
      ∃ s1, terminateStatement none stmt s = some s1 ∧
        terminateStatement r2 stmt s1 = some s1 ∧
        h ∉ s1.statements ∧ s1.conn = s.conn ∧ s1.resultsets = s.resultsets ∧
        s1.trace = s.trace ++ [Event.connTerminateStatement h]) := by
  constructor
  · intro h
    cases stmt with
    | none => rfl
    | some x => simp [terminateStatement, h x rfl]
  · intro h hst hreg hconn
    subst hst
    obtain ⟨c, hc⟩ := Option.isSome_iff_exists.mp hconn
    refine ⟨{ s with statements := s.statements.filter (fun x => x ≠ h),
                     trace := s.trace ++ [Event.connTerminateStatement h] }, ?_, ?_, ?_, rfl, rfl, rfl⟩
    · simp [terminateStatement, hreg, hc]
    · simp [terminateStatement]
    · simp

/-- C10, witness: terminating the registered statement 5 twice. -/
theorem terminateStatement_idempotent_witness :
    terminateStatement none (some 7) demoSession5 = some demoSession5 ∧
    ∃ s1, terminateStatement none (some 5) demoSession5 = some s1 ∧
      terminateStatement none (some 5) s1 = some s1 ∧
      s1.trace = [Event.connTerminateStatement 5] := by
  have h := terminateStatement_idempotent none none (some 5) demoSession5
  have h7 := terminateStatement_idempotent none none (some 7) demoSession5
  refine ⟨h7.1 (by intro x hx; cases hx; decide), ?_⟩
  obtain ⟨s1, h1, h2, _, _, _, h3⟩ := h.2 5 rfl (by decide) (by decide)
  exact ⟨s1, h1, h2, by simpa [demoSession5] using h3⟩

/-- C10, counterexample: when the underlying terminate call of the first
`terminateStatement(5)` throws, the statement stays registered, and the second
`terminateStatement(5)` calls the client again: two underlying calls, and a state that
differs from the one after the first call. -/
theorem terminateStatement_twice_two_calls :
    terminateStatement (some ⟨600, false⟩) (some 5) demoSession5
      = some { demoSession5 with trace := [Event.connTerminateStatement 5, Event.log] } ∧
    terminateStatement none (some 5)
        { demoSession5 with trace := [Event.connTerminateStatement 5, Event.log] }
      = some { demoSession5 with
          statements := []
          trace := [Event.connTerminateStatement 5, Event.log, Event.connTerminateStatement 5] } := by
  decide

/-- C7, the code at the failing inputs.  (1) `executeQuery(sql, onRow)` whose callback
throws `std::runtime_error` on its first invocation: the exception propagates while
statement 2 and result set 3 are still registered and no terminate call was made.
(2) The same call when the first fetch fails with a database error: the statement is
terminated, but result set 3 is still registered. -/
theorem executeQueryStr_leaks :
    executeQueryStr dbRows3 5 (Except.ok ()) cbThrows demoSession
      = Res.raise (Exc.std true)
          { env := some 0, conn := some 1, statements := [2],
            resultsets := [{ id := 3, stmt := some 2 }], fresh := 4,
            trace := [Event.connCreateStatement, Event.stmtExecuteQuery 2,
              Event.onResult { id := 3, stmt := some 2 }, Event.rsNext { id := 3, stmt := some 2 }] } ∧
    executeQueryStr dbFetchFails 5 (Except.ok ()) cbMore demoSession
      = Res.raise (Exc.sql ⟨1555, false⟩)
          { env := some 0, conn := some 1, statements := [],
            resultsets := [{ id := 3, stmt := some 2 }], fresh := 4,
            trace := [Event.connCreateStatement, Event.stmtExecuteQuery 2,
              Event.onResult { id := 3, stmt := some 2 }, Event.rsNext { id := 3, stmt := some 2 },
              Event.connTerminateStatement 2] } := by
  decide

/-- C8, the code at the failing input: the first `stmt->execute()` of `ensureExecute`
throws a `BatchSQLException`; all three callbacks are supplied.  `handle_exception`
re-throws a sliced copy, so `on_error` is invoked and `on_batch_error` is not. -/
theorem ensureExecute_batch_error_goes_to_onError :
    ensureExecute dbBatchThenOk 3 true true true demoSession
      = Res.ret 3
          { env := some 0, conn := some 1, statements := [], resultsets := [], fresh := 4,
            trace := [Event.connCreateStatement, Event.stmtSetAutoCommit 2,
              Event.onCreateStatement 2, Event.stmtExecute 2,
              Event.onError ⟨24381, false⟩, Event.sleep, Event.connTerminateStatement 2,
              Event.connCreateStatement, Event.stmtSetAutoCommit 3,
              Event.onCreateStatement 3, Event.stmtExecute 3,
              Event.connTerminateStatement 3] } := by
  decide

/-! ## Lemmas on row callbacks -/

theorem callNexts_ok (nextO : Nat → Except SqlErr RsStatus) (rs : RsHandle)
    (hnext : ∀ p, ∃ st, nextO p = Except.ok st) :
    ∀ (n pos : Nat) (s : Session), rs ∈ s.resultsets →
      callNexts nextO rs n pos s = Res.ret (pos + n) (s.emit (List.replicate n (Event.rsNext rs))) := by
  intro n
  induction n with
  | zero => intro pos s _; simp [callNexts, Session.emit]
  | succ n ih =>
    intro pos s hrs
    obtain ⟨st, hst⟩ := hnext pos
    have := ih (pos + 1) (s.emit [Event.rsNext rs]) (by simpa [Session.emit] using hrs)
    simp only [callNexts, next, hrs, if_true, hst, this]
    simp [Session.emit, List.replicate_succ]
    omega

theorem runOnResult_ok (nextO : Nat → Except SqlErr RsStatus) (rs : RsHandle)
    (hnext : ∀ p, ∃ st, nextO p = Except.ok st) (cb : RowCb) (pos : Nat) (s : Session)
    (hrs : rs ∈ s.resultsets) :
    runOnResult nextO cb rs pos s =
      match cb.fin with
      | .ret b => Res.ret (b, pos + cb.nexts)
          (s.emit (Event.onResult rs :: List.replicate cb.nexts (Event.rsNext rs)))
      | .raise e => Res.raise e
          (s.emit (Event.onResult rs :: List.replicate cb.nexts (Event.rsNext rs))) := by
  have := callNexts_ok nextO rs hnext cb.nexts pos (s.emit [Event.onResult rs])
    (by simpa [Session.emit] using hrs)
  simp only [runOnResult, this]
  cases cb.fin <;> simp [Session.emit]

theorem terminateStatement_total (r : Option SqlErr) (stmt : Option Nat) (s : Session)
    (hconn : s.conn.isSome = true) :
    ∃ t, terminateStatement r stmt s = some t ∧ t.conn = s.conn ∧
      t.trace.countP Event.isCreateStatement = s.trace.countP Event.isCreateStatement ∧
      t.trace.countP Event.isOnError = s.trace.countP Event.isOnError := by
  obtain ⟨c, hc⟩ := Option.isSome_iff_exists.mp hconn
  cases stmt with
  | none => exact ⟨s, rfl, rfl, rfl, rfl⟩
  | some h =>
    by_cases hreg : h ∈ s.statements
    · cases r with
      | none =>
        exact ⟨{ s with statements := s.statements.filter (fun x => x ≠ h),
                        trace := s.trace ++ [Event.connTerminateStatement h] },
          by simp [terminateStatement, hreg, hc], rfl,
          by simp [List.countP_append, List.countP_cons, Event.isCreateStatement],
          by simp [List.countP_append, List.countP_cons, Event.isOnError]⟩
      | some e =>
        exact ⟨s.emit [Event.connTerminateStatement h, Event.log],
          by simp [terminateStatement, hreg, hc], rfl,
          by simp [Session.emit, List.countP_append, List.countP_cons, Event.isCreateStatement],
          by simp [Session.emit, List.countP_append, List.countP_cons, Event.isOnError]⟩
    · exact ⟨s, by simp [terminateStatement, hreg], rfl, rfl, rfl⟩

theorem reconnected_counts (s t : Session) (h : Reconnected (reconnectReset true s) t) :
    t.conn.isSome = true ∧
    t.trace.countP Event.isCreateStatement = s.trace.countP Event.isCreateStatement ∧
    t.trace.countP Event.isOnError = s.trace.countP Event.isOnError := by
  obtain ⟨hc, _, _, extra, htrace, hall⟩ := h
  have h1 := countP_conn_events Event.isCreateStatement extra hall
    (by intro e he; cases e <;> simp_all [Event.isConn, Event.isCreateStatement])
  have h2 := countP_conn_events Event.isOnError extra hall
    (by intro e he; cases e <;> simp_all [Event.isConn, Event.isOnError])
  refine ⟨hc, ?_, ?_⟩
  · rw [htrace]
    cases hs : s.env <;>
      simp [reconnectReset, hs, List.countP_append, List.countP_cons, Event.isCreateStatement, h1]
  · rw [htrace]
    cases hs : s.env <;>
      simp [reconnectReset, hs, List.countP_append, List.countP_cons, Event.isOnError, h2]

/-- A failed `SQLException` path through `handle_exception`, whatever the code: the error
is re-raised in a session that is still connected. -/
theorem handle_exception_raises (w : ConnWorld) (B : Nat) (e : SqlErr) (stmt : Option Nat)
    (s : Session) (hconn : s.conn.isSome = true)
    (hreg : ∀ x, stmt = some x → x ∈ s.statements)
    (hdb : isTransient e.code = true →
      ∃ j, j < B ∧ w.createEnvironment j = none ∧ w.createConnection j = ConnOutcome.connected) :
    ∃ t, (∀ (α : Type) (fuel : Nat), B < fuel →
        (handle_exception w fuel e stmt s : Res α) = Res.raise (Exc.sql e.sliced) t) ∧
      t.conn.isSome = true ∧
      t.trace.countP Event.isCreateStatement = s.trace.countP Event.isCreateStatement ∧
      t.trace.countP Event.isOnError = s.trace.countP Event.isOnError := by
  cases htr : isTransient e.code with
  | false =>
    exact ⟨s, fun α fuel _ => handle_exception_fatal w fuel e stmt s htr, hconn, rfl, rfl⟩
  | true =>
    obtain ⟨j, hj, hE, hC⟩ := hdb htr
    obtain ⟨t, ht, hrun⟩ := handle_exception_transient w j hE hC e stmt s htr hreg
    obtain ⟨h1, h2, h3⟩ := reconnected_counts s t ht
    exact ⟨t, fun α fuel hf => hrun α fuel (by omega), h1, h2, h3⟩

theorem ensureExecuteUpdateTry_fails (w : AttemptWorld) (B : Nat) (s : Session)
    (hconn : s.conn.isSome = true) (hf : FailsWithDbError B w) :
    ∃ stmt e s1, (∀ fuel, B < fuel →
        ensureExecuteUpdateTry w fuel s = (stmt, Res.raise (Exc.sql e) s1)) ∧
      s1.conn.isSome = true ∧
      s1.trace.countP Event.isCreateStatement = s.trace.countP Event.isCreateStatement + 1 ∧
      s1.trace.countP Event.isOnError = s.trace.countP Event.isOnError := by
  obtain ⟨c, hc⟩ := Option.isSome_iff_exists.mp hconn
  obtain ⟨⟨e, hwhere, hdb⟩, _⟩ := hf
  rcases hwhere with hcr | ⟨hcr, hup⟩
  · obtain ⟨t, hrun, h1, h2, h3⟩ := handle_exception_raises w.conn B e none
      (s.emit [Event.connCreateStatement]) (by simpa [Session.emit] using hconn)
      (by intro x hx; cases hx) hdb
    refine ⟨none, e.sliced, t, ?_, h1, ?_, ?_⟩
    · intro fuel hfu
      simp [ensureExecuteUpdateTry, createStatement, hc, hcr, hrun Nat fuel hfu]
    · rw [h2]
      simp [Session.emit, List.countP_append, List.countP_cons, Event.isCreateStatement]
    · rw [h3]
      simp [Session.emit, List.countP_append, List.countP_cons, Event.isOnError]
  · obtain ⟨t, hrun, h1, h2, h3⟩ := handle_exception_raises w.conn B e (some s.fresh)
      ({ s with statements := s.statements.insert s.fresh, fresh := s.fresh + 1,
                trace := s.trace ++ [Event.connCreateStatement] ++
                  [Event.stmtSetAutoCommit s.fresh] ++ [Event.stmtExecuteUpdate s.fresh] })
      (by simpa using hconn) (by intro x hx; cases hx; simp) hdb
    refine ⟨some s.fresh, e.sliced, t, ?_, h1, ?_, ?_⟩
    · intro fuel hfu
      have := hrun Nat fuel hfu
      simp [hc] at this
      simp [ensureExecuteUpdateTry, createStatement, hc, hcr, executeUpdate, hup, Session.emit, this]
    · rw [h2]
      simp [List.countP_append, List.countP_cons, Event.isCreateStatement]
    · rw [h3]
      simp [List.countP_append, List.countP_cons, Event.isOnError]

theorem ensureExecuteUpdateLoop_fail_step (ws : Nat → AttemptWorld) (B : Nat)
    (hasOnError : Bool) (a : Nat) (s : Session) (hconn : s.conn.isSome = true)
    (hf : FailsWithDbError B (ws a)) :
    ∃ t, t.conn.isSome = true ∧
      t.trace.countP Event.isCreateStatement = s.trace.countP Event.isCreateStatement + 1 ∧
      t.trace.countP Event.isOnError
        = s.trace.countP Event.isOnError + (if hasOnError then 1 else 0) ∧
      ∀ fuel n, B < fuel →
        ensureExecuteUpdateLoop ws fuel hasOnError (n + 1) a UINT_MAX s
          = ensureExecuteUpdateLoop ws fuel hasOnError n (a + 1) UINT_MAX t := by
  obtain ⟨stmt, e, s1, htry, hc1, hcr1, hoe1⟩ := ensureExecuteUpdateTry_fails (ws a) B s hconn hf
  cases hasOnError with
  | false =>
    obtain ⟨t, ht, hct, h1, h2⟩ := terminateStatement_total (ws a).term stmt
      (s1.emit [Event.sleep]) (by simpa [Session.emit] using hc1)
    refine ⟨t, by rw [hct]; simpa [Session.emit] using hc1, ?_, ?_, ?_⟩
    · rw [h1, ← hcr1]
      simp [Session.emit, List.countP_append, List.countP_cons, Event.isCreateStatement]
    · rw [h2, ← hoe1]
      simp [Session.emit, List.countP_append, List.countP_cons, Event.isOnError]
    · intro fuel n hfu
      simp [ensureExecuteUpdateLoop, htry fuel hfu, ht, afterTerminate]
  | true =>
    cases hon : (ws a).onError with
    | ret u =>
      obtain ⟨t, ht, hct, h1, h2⟩ := terminateStatement_total (ws a).term stmt
        (s1.emit [Event.onError e, Event.sleep]) (by simpa [Session.emit] using hc1)
      refine ⟨t, by rw [hct]; simpa [Session.emit] using hc1, ?_, ?_, ?_⟩
      · rw [h1, ← hcr1]
        simp [Session.emit, List.countP_append, List.countP_cons, Event.isCreateStatement]
      · rw [h2, ← hoe1]
        simp [Session.emit, List.countP_append, List.countP_cons, Event.isOnError]
      · intro fuel n hfu
        simp [ensureExecuteUpdateLoop, htry fuel hfu, hon, ht, afterTerminate]
    | raise x =>
      have hx : x ≠ Exc.other := by
        intro hx
        exact hf.2 (by rw [hon, hx])
      obtain ⟨t, ht, hct, h1, h2⟩ := terminateStatement_total (ws a).term stmt
        (s1.emit [Event.onError e, Event.log, Event.sleep]) (by simpa [Session.emit] using hc1)
      refine ⟨t, by rw [hct]; simpa [Session.emit] using hc1, ?_, ?_, ?_⟩
      · rw [h1, ← hcr1]
        simp [Session.emit, List.countP_append, List.countP_cons, Event.isCreateStatement]
      · rw [h2, ← hoe1]
        simp [Session.emit, List.countP_append, List.countP_cons, Event.isOnError]
      · intro fuel n hfu
        cases x with
        | other => exact absurd rfl hx
        | sql e2 => simp [ensureExecuteUpdateLoop, htry fuel hfu, hon, ht, afterTerminate]
        | std m => simp [ensureExecuteUpdateLoop, htry fuel hfu, hon, ht, afterTerminate]

theorem ensureExecuteUpdateLoop_success_step (ws : Nat → AttemptWorld) (hasOnError : Bool)
    (a c : Nat) (s : Session) (hconn : s.conn.isSome = true) (hc : c < 2 ^ 32)
    (hne : c ≠ UINT_MAX) (hcreate : (ws a).create = none) (hup : (ws a).update = Except.ok c) :
    ∃ t, t.trace.countP Event.isCreateStatement = s.trace.countP Event.isCreateStatement + 1 ∧
      t.trace.countP Event.isOnError = s.trace.countP Event.isOnError ∧
      ∀ fuel n, ensureExecuteUpdateLoop ws fuel hasOnError (n + 2) a UINT_MAX s = Res.ret c t := by
  obtain ⟨k, hk⟩ := Option.isSome_iff_exists.mp hconn
  obtain ⟨t, ht, _, h1, h2⟩ := terminateStatement_total (ws a).term (some s.fresh)
    { s with statements := s.statements.insert s.fresh, fresh := s.fresh + 1,
             trace := s.trace ++ [Event.connCreateStatement, Event.stmtSetAutoCommit s.fresh,
               Event.stmtExecuteUpdate s.fresh] }
    (by simpa using hconn)
  refine ⟨t, ?_, ?_, ?_⟩
  · rw [h1]
    simp [List.countP_append, List.countP_cons, Event.isCreateStatement]
  · rw [h2]
    simp [List.countP_append, List.countP_cons, Event.isOnError]
  · intro fuel n
    simp [hk] at ht
    have hmod : c % 4294967296 = c := Nat.mod_eq_of_lt (by simpa using hc)
    simp [ensureExecuteUpdateLoop, ensureExecuteUpdateTry, createStatement, hk, hcreate,
      executeUpdate, hup, Session.emit, ht, afterTerminate, hmod, hne]

theorem ensureExecuteUpdateLoop_retries (ws : Nat → AttemptWorld) (B : Nat) (hasOnError : Bool)
    (c : Nat) (hc : c < 2 ^ 32) (hne : c ≠ UINT_MAX) :
    ∀ (n a : Nat) (s : Session), s.conn.isSome = true →
      (∀ k, k < n → FailsWithDbError B (ws (a + k))) →
      (ws (a + n)).create = none → (ws (a + n)).update = Except.ok c →
      ∃ t, t.trace.countP Event.isCreateStatement
            = s.trace.countP Event.isCreateStatement + (n + 1) ∧
        t.trace.countP Event.isOnError
            = s.trace.countP Event.isOnError + (if hasOnError then n else 0) ∧
        ∀ fuel m, B < fuel → n + 2 ≤ m →
          ensureExecuteUpdateLoop ws fuel hasOnError m a UINT_MAX s = Res.ret c t := by
  intro n
  induction n with
  | zero =>
    intro a s hconn _ hcreate hup
    obtain ⟨t, h1, h2, hrun⟩ := ensureExecuteUpdateLoop_success_step ws hasOnError a c s hconn
      hc hne (by simpa using hcreate) (by simpa using hup)
    refine ⟨t, by simpa using h1, by simpa using h2, ?_⟩
    intro fuel m _ hm
    obtain ⟨m0, rfl⟩ : ∃ m0, m = m0 + 2 := ⟨m - 2, by omega⟩
    exact hrun fuel m0
  | succ n ih =>
    intro a s hconn hfail hcreate hup
    obtain ⟨s1, hc1, hcr1, hoe1, hstep⟩ := ensureExecuteUpdateLoop_fail_step ws B hasOnError a s
      hconn (by simpa using hfail 0 (by omega))
    obtain ⟨t, h1, h2, hrun⟩ := ih (a + 1) s1 hc1
      (by
        intro k hk
        have := hfail (k + 1) (by omega)
        rwa [show a + (k + 1) = a + 1 + k by omega] at this)
      (by rwa [show a + 1 + n = a + (n + 1) by omega])
      (by rwa [show a + 1 + n = a + (n + 1) by omega])
    refine ⟨t, ?_, ?_, ?_⟩
    · rw [h1, hcr1]
      omega
    · rw [h2, hoe1]
      cases hasOnError <;> simp
      omega
    · intro fuel m hfu hm
      obtain ⟨m0, rfl⟩ : ∃ m0, m = m0 + 1 := ⟨m - 1, by omega⟩
      rw [hstep fuel m0 hfu]
      exact hrun fuel m0 hfu (by omega)

/-- C3: when the first `n` attempts of `ensureExecuteUpdate` fail with a database error
(in statement creation or in the update) and attempt `n + 1` succeeds reporting `c`
affected rows, `c` an `unsigned int` other than `UINT_MAX`, the call returns `c`, having
made exactly `n + 1` attempts (one `createStatement` each) and exactly `n` invocations of
`on_error`, when one is supplied. -/
theorem ensureExecuteUpdate_retries (ws : Nat → AttemptWorld) (B : Nat) (hasOnError : Bool)
    (n c : Nat) (s : Session) (hconn : s.conn.isSome = true) (hc : c < 2 ^ 32)
    (hne : c ≠ 4294967295)
    (hfail : ∀ k, k < n → FailsWithDbError B (ws k))
    (hcreate : (ws n).create = none) (hup : (ws n).update = Except.ok c) :
    ∃ t, (∀ fuel, B < fuel → n + 2 ≤ fuel →
        ensureExecuteUpdate ws fuel hasOnError s = Res.ret c t) ∧
      t.trace.countP Event.isCreateStatement = s.trace.countP Event.isCreateStatement + (n + 1) ∧
      t.trace.countP Event.isOnError
        = s.trace.countP Event.isOnError + (if hasOnError then n else 0) := by
  obtain ⟨t, h1, h2, hrun⟩ := ensureExecuteUpdateLoop_retries ws B hasOnError c hc
    (by simpa [UINT_MAX] using hne) n 0 s hconn (by simpa using hfail)
    (by simpa using hcreate) (by simpa using hup)
  exact ⟨t, fun fuel hf hm => hrun fuel fuel hf hm, h1, h2⟩

/-- C3, witness: the update fails twice with ORA-03113 and then reports 7 rows;
`on_error` is invoked exactly twice. -/
theorem ensureExecuteUpdate_retries_witness :
    ∃ t, ensureExecuteUpdate dbTwoFailures 4 true demoSession = Res.ret 7 t ∧
      t.trace.countP Event.isCreateStatement = 3 ∧ t.trace.countP Event.isOnError = 2 := by
  obtain ⟨t, hrun, h1, h2⟩ := ensureExecuteUpdate_retries dbTwoFailures 1 true 2 7 demoSession
    (by decide) (by decide) (by decide)
    (by
      intro k hk
      refine ⟨⟨⟨3113, false⟩, Or.inr ⟨rfl, by simp [dbTwoFailures, hk]⟩, ?_⟩, by simp [dbTwoFailures]⟩
      intro _
      exact ⟨0, by decide, rfl, rfl⟩)
    rfl (by simp [dbTwoFailures])
  exact ⟨t, hrun 4 (by decide) (by decide), by simpa [demoSession] using h1,
    by simpa [demoSession] using h2⟩


/-! ## Lemmas on `ensureExecuteQuery` -/

theorem runOnResult_once (nextO : Nat → Except SqlErr RsStatus) (cb : RowCb) (rs : RsHandle)
    (pos : Nat) (s : Session) (hrs : rs ∈ s.resultsets) (h1 : cb.nexts = 1) :
    runOnResult nextO cb rs pos s =
      match nextO pos with
      | .ok _ =>
        (match cb.fin with
          | .ret b => Res.ret (b, pos + 1) (s.emit [Event.onResult rs, Event.rsNext rs])
          | .raise e => Res.raise e (s.emit [Event.onResult rs, Event.rsNext rs]))
      | .error e => Res.raise (Exc.sql e) (s.emit [Event.onResult rs, Event.rsNext rs]) := by
  have hrs1 : rs ∈ (s.emit [Event.onResult rs]).resultsets := by simpa [Session.emit] using hrs
  simp only [runOnResult, h1, callNexts, next, hrs1, if_true]
  cases nextO pos <;> cases cb.fin <;> simp [Session.emit]

theorem emit_rowEvents_succ (s : Session) (rs : RsHandle) (m : Nat) :
    (s.emit [Event.onResult rs, Event.rsNext rs]).emit (rowEvents rs m)
      = s.emit (rowEvents rs (m + 1)) := by
  simp [Session.emit, rowEvents]

/-- The delivery loop with a callback that fetches one row per invocation, when `i`
invocations fetch a row and return `true` and the next invocation fails with `x`: either
its fetch succeeds and the callback throws `x`, or its fetch throws the `SQLException`
`x`.  `counter` has grown by `i` when the exception leaves the loop. -/
theorem deliver_fails (nextO : Nat → Except SqlErr RsStatus) (onRow : Nat → RowCb)
    (rs : RsHandle) (x : Exc) (honce : ∀ j, (onRow j).nexts = 1) :
    ∀ (i counter calls pos : Nat) (s : Session), rs ∈ s.resultsets →
      counter + i ≤ INT_MAX →
      (∀ j, j < i → (∃ st, nextO (pos + j) = Except.ok st) ∧
        (onRow (calls + j)).fin = CbFin.ret true) →
      (((∃ st, nextO (pos + i) = Except.ok st) ∧ (onRow (calls + i)).fin = CbFin.raise x) ∨
        (∃ e, nextO (pos + i) = Except.error e ∧ x = Exc.sql e)) →
      ∀ fuel, i < fuel →
        deliver nextO onRow rs fuel counter calls pos s
          = ⟨counter + i, calls + i + 1, Res.raise x (s.emit (rowEvents rs (i + 1)))⟩ := by
  intro i
  induction i with
  | zero =>
    intro counter calls pos s hrs _ _ hlast fuel hf
    simp only [Nat.add_zero] at hlast
    obtain ⟨f, rfl⟩ : ∃ f, fuel = f + 1 := ⟨fuel - 1, by omega⟩
    rcases hlast with ⟨⟨st, hst⟩, hfin⟩ | ⟨e, he, rfl⟩
    · simp [deliver, runOnResult_once nextO _ rs pos s hrs (honce calls), hst, hfin, rowEvents]
    · simp [deliver, runOnResult_once nextO _ rs pos s hrs (honce calls), he, rowEvents]
  | succ i ih =>
    intro counter calls pos s hrs hmax htrue hlast fuel hf
    obtain ⟨⟨st, hst⟩, h0⟩ := htrue 0 (by omega)
    simp only [Nat.add_zero] at hst h0
    obtain ⟨f, rfl⟩ : ∃ f, fuel = f + 1 := ⟨fuel - 1, by omega⟩
    have hrun := ih (counter + 1) (calls + 1) (pos + 1)
      (s.emit [Event.onResult rs, Event.rsNext rs])
      (by simpa [Session.emit] using hrs) (by omega)
      (by
        intro j hj
        have := htrue (j + 1) (by omega)
        rwa [show calls + (j + 1) = calls + 1 + j by omega,
          show pos + (j + 1) = pos + 1 + j by omega] at this)
      (by rwa [show calls + 1 + i = calls + (i + 1) by omega,
        show pos + 1 + i = pos + (i + 1) by omega])
      f (by omega)
    have hlt : counter < INT_MAX := by omega
    simp only [deliver, runOnResult_once nextO _ rs pos s hrs (honce calls), hst, h0, hlt, if_true]
    rw [hrun, emit_rowEvents_succ]
    congr 1 <;> omega

/-- The delivery loop when `i` invocations fetch a row and return `true` and the next
invocation fetches and returns `false`. -/
theorem deliver_stops (nextO : Nat → Except SqlErr RsStatus) (onRow : Nat → RowCb)
    (rs : RsHandle) (honce : ∀ j, (onRow j).nexts = 1) :
    ∀ (i counter calls pos : Nat) (s : Session), rs ∈ s.resultsets →
      counter + i ≤ INT_MAX →
      (∀ j, j ≤ i → ∃ st, nextO (pos + j) = Except.ok st) →
      (∀ j, j < i → (onRow (calls + j)).fin = CbFin.ret true) →
      (onRow (calls + i)).fin = CbFin.ret false →
      ∀ fuel, i < fuel →
        deliver nextO onRow rs fuel counter calls pos s
          = ⟨counter + i, calls + i + 1, Res.ret () (s.emit (rowEvents rs (i + 1)))⟩ := by
  intro i
  induction i with
  | zero =>
    intro counter calls pos s hrs _ hnext _ hlast fuel hf
    simp only [Nat.add_zero] at hlast
    obtain ⟨st, hst⟩ := hnext 0 (by omega)
    simp only [Nat.add_zero] at hst
    obtain ⟨f, rfl⟩ : ∃ f, fuel = f + 1 := ⟨fuel - 1, by omega⟩
    simp [deliver, runOnResult_once nextO _ rs pos s hrs (honce calls), hst, hlast, rowEvents]
  | succ i ih =>
    intro counter calls pos s hrs hmax hnext htrue hlast fuel hf
    obtain ⟨st, hst⟩ := hnext 0 (by omega)
    have h0 := htrue 0 (by omega)
    simp only [Nat.add_zero] at hst h0
    obtain ⟨f, rfl⟩ : ∃ f, fuel = f + 1 := ⟨fuel - 1, by omega⟩
    have hrun := ih (counter + 1) (calls + 1) (pos + 1)
      (s.emit [Event.onResult rs, Event.rsNext rs])
      (by simpa [Session.emit] using hrs) (by omega)
      (by
        intro j hj
        have := hnext (j + 1) (by omega)
        rwa [show pos + (j + 1) = pos + 1 + j by omega] at this)
      (by
        intro j hj
        have := htrue (j + 1) (by omega)
        rwa [show calls + (j + 1) = calls + 1 + j by omega] at this)
      (by rwa [show calls + 1 + i = calls + (i + 1) by omega])
      f (by omega)
    have hlt : counter < INT_MAX := by omega
    simp only [deliver, runOnResult_once nextO _ rs pos s hrs (honce calls), hst, h0, hlt, if_true]
    rw [hrun, emit_rowEvents_succ]
    congr 1 <;> omega

/-- The delivery loop when the callback keeps returning `true` until `counter` is
`INT_MAX`: the next `counter++` overflows. -/
theorem deliver_overflow (nextO : Nat → Except SqlErr RsStatus) (onRow : Nat → RowCb)
    (rs : RsHandle) (honce : ∀ j, (onRow j).nexts = 1) :
    ∀ (d counter calls pos : Nat) (s : Session), rs ∈ s.resultsets →
      counter + d = INT_MAX →
      (∀ j, j ≤ d → (∃ st, nextO (pos + j) = Except.ok st) ∧
        (onRow (calls + j)).fin = CbFin.ret true) →
      ∀ fuel, d < fuel →
        (deliver nextO onRow rs fuel counter calls pos s).out = Res.ub := by
  intro d
  induction d with
  | zero =>
    intro counter calls pos s hrs hmax htrue fuel hf
    obtain ⟨⟨st, hst⟩, h0⟩ := htrue 0 (by omega)
    simp only [Nat.add_zero] at hst h0 hmax
    obtain ⟨f, rfl⟩ : ∃ f, fuel = f + 1 := ⟨fuel - 1, by omega⟩
    simp [deliver, runOnResult_once nextO _ rs pos s hrs (honce calls), hst, h0, hmax]
  | succ d ih =>
    intro counter calls pos s hrs hmax htrue fuel hf
    obtain ⟨⟨st, hst⟩, h0⟩ := htrue 0 (by omega)
    simp only [Nat.add_zero] at hst h0
    obtain ⟨f, rfl⟩ : ∃ f, fuel = f + 1 := ⟨fuel - 1, by omega⟩
    have hrun := ih (counter + 1) (calls + 1) (pos + 1)
      (s.emit [Event.onResult rs, Event.rsNext rs])
      (by simpa [Session.emit] using hrs) (by omega)
      (by
        intro j hj
        have := htrue (j + 1) (by omega)
        rwa [show calls + (j + 1) = calls + 1 + j by omega,
          show pos + (j + 1) = pos + 1 + j by omega] at this)
      f (by omega)
    have hlt : counter < INT_MAX := by omega
    simp only [deliver, runOnResult_once nextO _ rs pos s hrs (honce calls), hst, h0, hlt, if_true]
    exact hrun

/-- Skipping `c` rows of an `n`-row result from cursor position `pos`, `pos + c ≤ n`:
exactly `c` calls to `next`, rows still available, cursor at `pos + c`. -/
theorem skipRows_rows (n : Nat) (rs : RsHandle) :
    ∀ (c pos : Nat) (s : Session), rs ∈ s.resultsets → pos + c ≤ n →
      skipRows (rowsOf n) rs c pos s
        = Res.ret (true, pos + c) (s.emit (List.replicate c (Event.rsNext rs))) := by
  intro c
  induction c with
  | zero => intro pos s _ _; simp [skipRows, Session.emit]
  | succ c ih =>
    intro pos s hrs hle
    have hlt : pos < n := by omega
    have := ih (pos + 1) (s.emit [Event.rsNext rs]) (by simpa [Session.emit] using hrs) (by omega)
    simp only [skipRows, next, hrs, if_true, rowsOf, hlt, RsStatus.toBool]
    simp only [rowsOf] at this
    rw [this]
    simp [Session.emit, List.replicate_succ]
    omega

theorem terminateStatement_cleanup (r : Option SqlErr) (stmt : Option Nat) (s : Session)
    (hconn : s.conn.isSome = true) :
    ∃ t extra, terminateStatement r stmt s = some t ∧ t.conn = s.conn ∧ t.fresh = s.fresh ∧
      t.trace = s.trace ++ extra ∧ ∀ e ∈ extra, e.isCleanup = true := by
  obtain ⟨c, hc⟩ := Option.isSome_iff_exists.mp hconn
  cases stmt with
  | none => exact ⟨s, [], rfl, rfl, rfl, by simp, by simp⟩
  | some h =>
    by_cases hreg : h ∈ s.statements
    · cases r with
      | none =>
        exact ⟨{ s with statements := s.statements.filter (fun x => x ≠ h),
                        trace := s.trace ++ [Event.connTerminateStatement h] },
          [Event.connTerminateStatement h],
          by simp [terminateStatement, hreg, hc], rfl, rfl, rfl, by simp [Event.isCleanup]⟩
      | some e =>
        exact ⟨s.emit [Event.connTerminateStatement h, Event.log],
          [Event.connTerminateStatement h, Event.log],
          by simp [terminateStatement, hreg, hc], rfl, rfl, rfl, by simp [Event.isCleanup]⟩
    · exact ⟨s, [], by simp [terminateStatement, hreg], rfl, rfl, by simp, by simp⟩

/-- Each handler of `ensureExecuteQuery` lets the loop go on, in a session that is still
connected, when `on_error` returns. -/
theorem queryCatch_continues (w : QueryWorld) (hasOnError : Bool) (stmt : Option Nat) (x : Exc)
    (s : Session) (hconn : s.conn.isSome = true) (hon : w.onError = CbFin.ret ()) :
    ∃ t handling, queryCatch w hasOnError stmt x s = Res.ret () t ∧ t.conn.isSome = true ∧
      t.fresh = s.fresh ∧ t.trace = s.trace ++ handling ∧
      ∀ e ∈ handling, e.isCleanup = true := by
  have key : ∀ (s0 : Session) (pre : List Event), s0 = s.emit pre →
      (∀ e ∈ pre, e.isCleanup = true) →
      ∃ t handling, afterTerminate (terminateStatement w.term stmt s0)
          (fun s1 => Res.ret () (s1.emit [Event.sleep])) = Res.ret () t ∧
        t.conn.isSome = true ∧ t.fresh = s.fresh ∧ t.trace = s.trace ++ handling ∧
        ∀ e ∈ handling, e.isCleanup = true := by
    intro s0 pre hs0 hpre
    subst hs0
    obtain ⟨t, extra, ht, hct, hft, htr, hall⟩ := terminateStatement_cleanup w.term stmt
      (s.emit pre) (by simpa [Session.emit] using hconn)
    refine ⟨t.emit [Event.sleep], pre ++ extra ++ [Event.sleep], by simp [ht, afterTerminate],
      by simpa [Session.emit, hct] using hconn, by simpa [Session.emit] using hft,
      by simp [Session.emit, htr, List.append_assoc], ?_⟩
    intro e he
    simp only [List.mem_append, List.mem_singleton] at he
    rcases he with (he | he) | rfl
    · exact hpre e he
    · exact hall e he
    · rfl
  cases x with
  | sql err =>
    cases hasOnError with
    | true =>
      obtain ⟨t, h, ht, rest⟩ := key (s.emit [Event.onError err]) [Event.onError err] rfl
        (by simp [Event.isCleanup])
      exact ⟨t, h, by simp only [queryCatch, if_true, hon, ht], rest⟩
    | false =>
      obtain ⟨t, h, ht, rest⟩ := key s [] (by simp [Session.emit]) (by simp)
      exact ⟨t, h, by simpa [queryCatch] using ht, rest⟩
  | std m =>
    cases m with
    | true =>
      obtain ⟨t, h, ht, rest⟩ := key (s.emit [Event.log]) [Event.log] rfl
        (by simp [Event.isCleanup])
      exact ⟨t, h, by simpa [queryCatch] using ht, rest⟩
    | false =>
      obtain ⟨t, h, ht, rest⟩ := key s [] (by simp [Session.emit]) (by simp)
      exact ⟨t, h, by simpa [queryCatch] using ht, rest⟩
  | other =>
    obtain ⟨t, h, ht, rest⟩ := key s [] (by simp [Session.emit]) (by simp)
    exact ⟨t, h, by simpa [queryCatch] using ht, rest⟩

theorem closeResultSet_cleanup (rc rt : Option SqlErr) (rs : RsHandle) (s : Session)
    (hconn : s.conn.isSome = true) :
    ∃ t closing, closeResultSet rc rt (some rs) s = some t ∧ t.trace = s.trace ++ closing ∧
      ∀ e ∈ closing, e.isCleanup = true := by
  have key : ∀ (s0 : Session) (pre : List Event) (st : Option Nat), s0.conn.isSome = true →
      s0.trace = s.trace ++ pre → (∀ e ∈ pre, e.isCleanup = true) →
      ∃ t closing, terminateStatement rt st s0 = some t ∧ t.trace = s.trace ++ closing ∧
        ∀ e ∈ closing, e.isCleanup = true := by
    intro s0 pre st h0 htr0 hpre
    obtain ⟨t, extra, ht, _, _, htr, hall⟩ := terminateStatement_cleanup rt st s0 h0
    refine ⟨t, pre ++ extra, ht, by simp [htr, htr0, List.append_assoc], ?_⟩
    intro e he
    simp only [List.mem_append] at he
    rcases he with he | he
    · exact hpre e he
    · exact hall e he
  by_cases hreg : rs ∈ s.resultsets
  · cases hst : rs.stmt with
    | none =>
      obtain ⟨t, c, ht, rest⟩ := key { s with resultsets := s.resultsets.filter (fun x => x ≠ rs) }
        [] none (by simpa using hconn) (by simp) (by simp)
      exact ⟨t, c, by simpa [closeResultSet, hreg, hst] using ht, rest⟩
    | some st =>
      cases rc with
      | none =>
        obtain ⟨t, c, ht, rest⟩ := key
          { s with resultsets := s.resultsets.filter (fun x => x ≠ rs),
                   trace := s.trace ++ [Event.stmtCloseResultSet rs] }
          [Event.stmtCloseResultSet rs] (some st) (by simpa using hconn) (by simp)
          (by simp [Event.isCleanup])
        exact ⟨t, c, by simpa [closeResultSet, hreg, hst] using ht, rest⟩
      | some e =>
        obtain ⟨t, c, ht, rest⟩ := key (s.emit [Event.stmtCloseResultSet rs, Event.log])
          [Event.stmtCloseResultSet rs, Event.log] (some st)
          (by simpa [Session.emit] using hconn) (by simp [Session.emit])
          (by simp [Event.isCleanup])
        exact ⟨t, c, by simpa [closeResultSet, hreg, hst] using ht, rest⟩
  · exact ⟨s, [], by simp [closeResultSet, hreg], by simp, by simp⟩

theorem queryFinish_ub (w : QueryWorld) (hasOnError : Bool)
    (retry : Nat → Nat → Session → Res Unit) (stmt : Option Nat) (rs : Option RsHandle)
    (d : Delivered) (h : d.out = Res.ub) :
    queryFinish w hasOnError retry (stmt, rs, d) = Res.ub := by
  cases d with
  | mk counter calls out =>
    simp only at h
    subst h
    rfl

theorem ensureExecuteQueryLoop_succ (ws : Nat → QueryWorld) (onRow : Nat → RowCb)
    (fuel : Nat) (hasOnError : Bool) (m a counter calls : Nat) (s : Session) :
    ensureExecuteQueryLoop ws onRow fuel hasOnError (m + 1) a counter calls s
      = queryFinish (ws a) hasOnError
          (fun counter1 calls1 s2 =>
            ensureExecuteQueryLoop ws onRow fuel hasOnError m (a + 1) counter1 calls1 s2)
          (queryTry (ws a) onRow fuel counter calls s) := by
  rfl

/-- C2 (as amended): `ensureExecuteQuery` on a connected session, over an `n`-row result
that is the same at every execution, with a callback that fetches one row per invocation
and returns `true` on its first `k - 1` invocations, whose `k`-th invocation fails with `x`
(`1 ≤ k ≤ n`, and `k - 1 ≤ INT_MAX`, the range of `counter`): the callback throws `x` after
its fetch, or the fetch itself throws the `SQLException` `x`; `on_error` returns.

The first attempt makes `k` callback invocations and ends in a handler (session `s1`).
The whole call then goes on as the second attempt: one `createStatement`, one
`executeQuery`, exactly `k - 1` calls to `next` with no callback invocation (session `s2`),
and then the delivery loop entered with `counter = k - 1` at cursor position `k - 1`, where
the fetch of the first callback invocation delivers row `k`.  When the callback then
returns `true` `m` more times and `false` once, the call returns, and its trace is that
of `s2` followed by those `m + 1` deliveries and by clean-up events only. -/
theorem ensureExecuteQuery_resumes (ws : Nat → QueryWorld) (onRow : Nat → RowCb)
    (hasOnError : Bool) (s : Session) (n k : Nat) (x : Exc)
    (hk : 1 ≤ k) (hkn : k ≤ n) (hint : k - 1 ≤ INT_MAX) (hconn : s.conn.isSome = true)
    (h0c : (ws 0).create = none) (h0q : (ws 0).query = Except.ok ())
    (h0n : ∀ p, p + 1 < k → (ws 0).nextO p = rowsOf n p)
    (h0e : (ws 0).onError = CbFin.ret ())
    (h1c : (ws 1).create = none) (h1q : (ws 1).query = Except.ok ())
    (h1n : (ws 1).nextO = rowsOf n)
    (honce : ∀ j, (onRow j).nexts = 1)
    (htrue : ∀ j, j + 1 < k → (onRow j).fin = CbFin.ret true)
    (hraise : ((ws 0).nextO (k - 1) = rowsOf n (k - 1) ∧ (onRow (k - 1)).fin = CbFin.raise x) ∨
      (∃ e, (ws 0).nextO (k - 1) = Except.error e ∧ x = Exc.sql e)) :
    ∃ (s1 s2 : Session) (handling : List Event),
      s1.trace = s.trace ++ [Event.connCreateStatement, Event.stmtExecuteQuery s.fresh] ++
          rowEvents ⟨s.fresh + 1, some s.fresh⟩ k ++ handling ∧
      (∀ e ∈ handling, e.isCleanup = true) ∧
      s1.fresh = s.fresh + 2 ∧
      s2.trace = s1.trace ++ [Event.connCreateStatement, Event.stmtExecuteQuery s1.fresh] ++
          List.replicate (k - 1) (Event.rsNext ⟨s1.fresh + 1, some s1.fresh⟩) ∧
      (∀ fuel, k + 1 ≤ fuel →
        ensureExecuteQuery ws onRow fuel hasOnError s
          = queryFinish (ws 1) hasOnError
              (fun counter1 calls1 t =>
                ensureExecuteQueryLoop ws onRow fuel hasOnError (fuel - 2) 2 counter1 calls1 t)
              (some s1.fresh, some ⟨s1.fresh + 1, some s1.fresh⟩,
                deliver (rowsOf n) onRow ⟨s1.fresh + 1, some s1.fresh⟩ fuel (k - 1) k (k - 1) s2)) ∧
      runOnResult (rowsOf n) (onRow k) ⟨s1.fresh + 1, some s1.fresh⟩ (k - 1) s2
          = (match (onRow k).fin with
            | .ret b => Res.ret (b, k)
                (s2.emit [Event.onResult ⟨s1.fresh + 1, some s1.fresh⟩,
                  Event.rsNext ⟨s1.fresh + 1, some s1.fresh⟩])
            | .raise e => Res.raise e
                (s2.emit [Event.onResult ⟨s1.fresh + 1, some s1.fresh⟩,
                  Event.rsNext ⟨s1.fresh + 1, some s1.fresh⟩])) ∧
      rowsOf n (k - 1) = Except.ok RsStatus.DATA_AVAILABLE ∧
      (∀ m, k - 1 + m ≤ INT_MAX →
        (∀ j, j < m → (onRow (k + j)).fin = CbFin.ret true) →
        (onRow (k + m)).fin = CbFin.ret false →
        ∃ (t : Session) (closing : List Event),
          (∀ fuel, k + m + 1 ≤ fuel →
            ensureExecuteQuery ws onRow fuel hasOnError s = Res.ret () t) ∧
          t.trace = s2.trace ++ rowEvents ⟨s1.fresh + 1, some s1.fresh⟩ (m + 1) ++ closing ∧
          ∀ e ∈ closing, e.isCleanup = true) := by
  obtain ⟨c, hc⟩ := Option.isSome_iff_exists.mp hconn
  obtain ⟨i, rfl⟩ : ∃ i, k = i + 1 := ⟨k - 1, by omega⟩
  simp only [Nat.add_sub_cancel] at hraise hint ⊢
  have hrows : ∀ p, ∃ st, rowsOf n p = Except.ok st := fun p => ⟨_, rfl⟩
  -- the first attempt
  let rs0 : RsHandle := ⟨s.fresh + 1, some s.fresh⟩
  let sa : Session :=
    { s with statements := s.statements.insert s.fresh
             resultsets := s.resultsets.insert rs0
             fresh := s.fresh + 1 + 1
             trace := s.trace ++ [Event.connCreateStatement] ++ [Event.stmtExecuteQuery s.fresh] }
  have hdel := deliver_fails (ws 0).nextO onRow rs0 x honce i 0 0 0 sa
    (by simp [sa]) (by omega)
    (by
      intro j hj
      refine ⟨⟨_, by simpa using h0n j (by omega)⟩, by simpa using htrue j (by omega)⟩)
    (by
      rcases hraise with ⟨h1, h2⟩ | h
      · exact Or.inl ⟨⟨_, by simpa using h1⟩, by simpa using h2⟩
      · exact Or.inr (by simpa using h))
  obtain ⟨s1, handling, hcatch, hc1, hf1, htr1, hclean⟩ := queryCatch_continues (ws 0)
    hasOnError (some s.fresh) x (sa.emit (rowEvents rs0 (i + 1)))
    (by simpa [sa, Session.emit] using hconn) h0e
  obtain ⟨c1, hc1'⟩ := Option.isSome_iff_exists.mp hc1
  have hq0 : ∀ fuel, i < fuel → queryTry (ws 0) onRow fuel 0 0 s
      = (some s.fresh, some rs0,
          ⟨i, i + 1, Res.raise x (sa.emit (rowEvents rs0 (i + 1)))⟩) := by
    intro fuel hf
    have hd := hdel fuel hf
    simp only [sa, rs0, hc, Nat.zero_add] at hd
    simp only [queryTry, queryPrologue, createStatement, hc, h0c, executeQuery, h0q, skipRows, hd,
      sa, rs0]
  -- the second attempt
  let rs1 : RsHandle := ⟨s1.fresh + 1, some s1.fresh⟩
  let sb : Session :=
    { s1 with statements := s1.statements.insert s1.fresh
              resultsets := s1.resultsets.insert rs1
              fresh := s1.fresh + 1 + 1
              trace := s1.trace ++ [Event.connCreateStatement] ++ [Event.stmtExecuteQuery s1.fresh] }
  let s2 : Session := sb.emit (List.replicate i (Event.rsNext rs1))
  have hskip := skipRows_rows n rs1 i 0 sb (by simp [sb]) (by omega)
  have hq1 : ∀ fuel, queryTry (ws 1) onRow fuel i (i + 1) s1
      = (some s1.fresh, some rs1, deliver (rowsOf n) onRow rs1 fuel i (i + 1) i s2) := by
    intro fuel
    simp only [sb, rs1, hc1', Nat.zero_add] at hskip
    simp only [queryTry, queryPrologue, createStatement, hc1', h1c, executeQuery, h1q, h1n, hskip,
      s2, sb, rs1]
  have hreg2 : rs1 ∈ s2.resultsets := by simp [s2, sb, Session.emit]
  have hconn2 : s2.conn.isSome = true := by simpa [s2, sb, Session.emit] using hc1
  have hrun : ∀ fuel, i + 1 + 1 ≤ fuel →
      ensureExecuteQuery ws onRow fuel hasOnError s
        = queryFinish (ws 1) hasOnError
            (fun counter1 calls1 t =>
              ensureExecuteQueryLoop ws onRow fuel hasOnError (fuel - 2) 2 counter1 calls1 t)
            (some s1.fresh, some rs1, deliver (rowsOf n) onRow rs1 fuel i (i + 1) i s2) := by
    intro fuel hf
    obtain ⟨f, rfl⟩ : ∃ f, fuel = f + 2 := ⟨fuel - 2, by omega⟩
    rw [ensureExecuteQuery, ensureExecuteQueryLoop_succ, hq0 (f + 2) (by omega)]
    simp only [queryFinish, hcatch]
    rw [ensureExecuteQueryLoop_succ, hq1]
    rfl
  refine ⟨s1, s2, handling, ?_, hclean, ?_, ?_, hrun, ?_, ?_, ?_⟩
  · rw [htr1]
    simp [sa, rs0, Session.emit, List.append_assoc]
  · rw [hf1]
    simp [sa, Session.emit]
  · simp [s2, sb, Session.emit, List.append_assoc]
  · rw [runOnResult_ok (rowsOf n) rs1 hrows (onRow (i + 1)) i _ hreg2, honce (i + 1)]
    cases (onRow (i + 1)).fin <;> simp [Session.emit]
  · have : i < n := by omega
    simp [rowsOf, this]
  · intro m hm hmore hstop
    have hd := deliver_stops (rowsOf n) onRow rs1 honce m i (i + 1) i s2 hreg2 hm
      (fun j _ => hrows _) hmore hstop
    obtain ⟨t, closing, hcl, htr, hall⟩ := closeResultSet_cleanup (ws 1).close (ws 1).term rs1
      (s2.emit (rowEvents rs1 (m + 1))) (by simpa [Session.emit] using hconn2)
    refine ⟨t, closing, ?_, by simpa [Session.emit] using htr, hall⟩
    intro fuel hf
    rw [hrun fuel (by omega), hd fuel (by omega)]
    simp [queryFinish, hcl, afterTerminate]

/-- C2, witness: ten rows, the sixth delivery fails, the retry delivers rows 6 to 8 and the
callback then stops: the retry skips exactly five rows, and the call returns. -/
theorem ensureExecuteQuery_resumes_witness :
    ∃ (s1 s2 t : Session) (closing : List Event),
      s1.fresh = 4 ∧
      s2.trace = s1.trace ++ [Event.connCreateStatement, Event.stmtExecuteQuery s1.fresh] ++
        List.replicate 5 (Event.rsNext ⟨s1.fresh + 1, some s1.fresh⟩) ∧
      ensureExecuteQuery dbTenRows cbFailsAtSixth 9 true demoSession = Res.ret () t ∧
      t.trace = s2.trace ++ rowEvents ⟨s1.fresh + 1, some s1.fresh⟩ 3 ++ closing ∧
      ∀ e ∈ closing, e.isCleanup = true := by
  obtain ⟨s1, s2, _, _, _, hf, hB, _, _, _, hE⟩ := ensureExecuteQuery_resumes dbTenRows
    cbFailsAtSixth true demoSession 10 6 (Exc.std true) (by decide) (by decide) (by decide)
    (by decide) rfl rfl (by intro p _; rfl) rfl rfl rfl rfl (by intro j; rfl)
    (by intro j hj; have h5 : j ≠ 5 := by omega
        have h8 : j < 8 := by omega
        simp [cbFailsAtSixth, h5, h8])
    (Or.inl ⟨rfl, by simp [cbFailsAtSixth]⟩)
  obtain ⟨t, closing, hrun, htr, hall⟩ := hE 2 (by decide)
    (by intro j hj; have h5 : 6 + j ≠ 5 := by omega
        have h8 : 6 + j < 8 := by omega
        simp [cbFailsAtSixth, h5, h8])
    (by simp [cbFailsAtSixth])
  exact ⟨s1, s2, t, closing, by simpa [demoSession] using hf, hB, hrun 9 (by decide), htr, hall⟩

/-- C2, counterexample: a result of 2147483649 rows and a callback that returns `true` on
its first 2147483648 invocations and throws on the next one (`k = 2147483649`).  The
2147483648-th `counter++` is executed with `counter = INT_MAX`: a signed overflow, so the
behaviour is undefined and no skip of `k - 1` rows is guaranteed.  (On the usual compilers
`counter` wraps to a negative value and the retry skips no row at all.) -/
theorem ensureExecuteQuery_counter_overflows :
    ensureExecuteQuery dbManyRows cbFailsLate 2147483649 true demoSession = Res.ub := by
  have hstep := ensureExecuteQueryLoop_succ dbManyRows cbFailsLate 2147483649 true 2147483648
    0 0 0 demoSession
  have hover := deliver_overflow (rowsOf 2147483649) cbFailsLate ⟨3, some 2⟩ (fun _ => rfl)
    2147483647 0 0 0
    { env := some 0, conn := some 1, statements := [2], resultsets := [⟨3, some 2⟩], fresh := 4,
      trace := [Event.connCreateStatement, Event.stmtExecuteQuery 2] }
    (by simp) (by simp [INT_MAX])
    (by
      intro j hj
      have hlt : j < 2147483648 := by omega
      exact ⟨⟨_, rfl⟩, by simp [cbFailsLate, hlt]⟩)
    2147483649 (by omega)
  have htry : queryTry (dbManyRows 0) cbFailsLate 2147483649 0 0 demoSession
      = (some 2, some ⟨3, some 2⟩,
          deliver (rowsOf 2147483649) cbFailsLate ⟨3, some 2⟩ 2147483649 0 0 0
            { env := some 0, conn := some 1, statements := [2], resultsets := [⟨3, some 2⟩],
              fresh := 4, trace := [Event.connCreateStatement, Event.stmtExecuteQuery 2] }) := by
    rfl
  unfold ensureExecuteQuery
  refine Eq.trans hstep ?_
  rw [htry]
  exact queryFinish_ub _ _ _ _ _ _ hover

end Occi11
